import Mathlib

/-!
Shallow embedding of the chronox date/time library core (TypeScript) in Lean 4.

Embedded modules:
* src/utils/validation.ts  — calendar rules (leap year, days in month, field validation)
* src/core/ChronoDate.ts   — the immutable DateTime value and its validated factories
* src/core/arithmetic.ts   — addDays / addMonths (via the host Date object)
* src/core/comparison.ts   — isBefore / isAfter / isSame / diff / min / max
* src/parse/iso.ts         — the ISO-8601-subset parser
* src/format/tokens.ts and the formatter cache — preset table and compile cache

The library runs on a JavaScript engine, so the host `Date` object is part of
its semantics.  The functions `jsDateUTC`, `jsSetUTCDate`, `jsSetUTCMonth`,
`getUTCFullYear`, ... below model the ECMAScript specification of `Date.UTC`,
`Date.prototype.setUTCDate`, `Date.prototype.setUTCMonth` and the UTC field
accessors: proleptic-Gregorian decomposition/composition of a millisecond
timestamp, including the ECMAScript `MakeFullYear` rule that maps a year
argument in 0..99 to 1900 + year (this rule applies to `Date.UTC` only, not to
the accessors), and the ECMAScript `TimeClip` range cut-off: a time value
beyond ±8.64e15 ms is NaN, modelled here as `none` of an `Option Int`
(`timeClip` below), and all arithmetic and comparisons on possibly-NaN
numbers follow the JavaScript NaN rules (NaN propagates through arithmetic,
every comparison with NaN — including `NaN === NaN` — is false).  ECMAScript
`floor` and `modulo` with a positive divisor coincide with Lean's `Int`
division and remainder, which this file uses throughout.

Machine numbers: all non-NaN quantities involved are integers of magnitude
at most 8.64e15 < 2^53, where JavaScript number arithmetic is exact, so
`Option Int` (with `none` for NaN) is a faithful model.
-/

namespace Chronox

/-! ### Calendar rules — src/utils/validation.ts -/

/-- Leap-year test (src/utils/validation.ts `isLeapYear`).
JavaScript `%` is a truncating remainder; the source only compares remainders
with 0, and a truncating remainder is 0 exactly when the Euclidean remainder
is 0, so Lean's `%` on `Int` is a faithful model of these tests. -/
def isLeapYear (year : Int) : Bool :=
  (year % 4 == 0 && year % 100 != 0) || year % 400 == 0

/-- The month-length table `[31, 28, 31, 30, 31, 30, 31, 31, 30, 31, 30, 31]`
from `getDaysInMonth`. -/
def daysInMonthTable : List Int := [31, 28, 31, 30, 31, 30, 31, 31, 30, 31, 30, 31]

/-- src/utils/validation.ts `getDaysInMonth`.  The source reads
`daysInMonth[month - 1] || 0`: a JavaScript out-of-bounds array read yields
`undefined`, which `|| 0` turns into 0.  A negative index (month below 1) is
likewise out of bounds, hence the explicit guard before the `List.getD`
lookup (whose natural-number index could not go negative). -/
def getDaysInMonth (year month : Int) : Int :=
  if month == 2 && isLeapYear year then 29
  else if month < 1 then 0
  else daysInMonthTable.getD (month - 1).toNat 0

/-- src/utils/validation.ts `isValidDate`. -/
def isValidDate (year month day : Int) : Bool :=
  if month < 1 || month > 12 then false
  else if day < 1 then false
  else decide (day ≤ getDaysInMonth year month)

/-- src/utils/validation.ts `isValidTime`. -/
def isValidTime (hour minute second millisecond : Int) : Bool :=
  decide (0 ≤ hour) && decide (hour ≤ 23) &&
  decide (0 ≤ minute) && decide (minute ≤ 59) &&
  decide (0 ≤ second) && decide (second ≤ 59) &&
  decide (0 ≤ millisecond) && decide (millisecond ≤ 999)

/-- src/utils/validation.ts `padZero`: `num.toString().padStart(length, '0')`.
For a negative number the sign is part of the string and the zeros are padded
before it, exactly as in JavaScript. -/
def padZero (num : Int) (len : Nat) : String :=
  let s := toString num
  if s.length < len then String.mk (List.replicate (len - s.length) '0') ++ s else s

/-! ### Model of the ECMAScript Date host object

`daysFromCivil` is the proleptic-Gregorian civil-date-to-day-number map
(day 0 = 1970-01-01); it models the ECMAScript `MakeDay` composition.
`civilFromDays` is its inverse (the `YearFromTime` / `MonthFromTime` /
`DateFromTime` decomposition), implemented by the standard century-splitting
civil-from-days algorithm; the theorems `civilFromDays_valid` and
`daysFromCivil_civilFromDays` below prove that it is a valid calendar date
and a two-sided inverse, which characterises the decomposition uniquely. -/

/-- March-based year of a civil date: January and February count as the tail
of the preceding year. -/
def dfcY2 (y m : Int) : Int := if m ≤ 2 then y - 1 else y

/-- Era index (400-year block) of a civil date. -/
def dfcEra (y m : Int) : Int := dfcY2 y m / 400

/-- Year within the era, in 0..399. -/
def dfcYoe (y m : Int) : Int := dfcY2 y m - 400 * dfcEra y m

/-- March-based month index, 0 = March .. 11 = February. -/
def dfcMp (m : Int) : Int := if m > 2 then m - 3 else m + 9

/-- Day within the March-based year. -/
def dfcDoy (m d : Int) : Int := (153 * dfcMp m + 2) / 5 + d - 1

/-- Day within the era. -/
def dfcDoe (y m d : Int) : Int :=
  365 * dfcYoe y m + dfcYoe y m / 4 - dfcYoe y m / 100 + dfcDoy m d

/-- Day number of a civil date (proleptic Gregorian, day 0 = 1970-01-01). -/
def daysFromCivil (y m d : Int) : Int :=
  dfcEra y m * 146097 + dfcDoe y m d - 719468

/-- Era index (400-year block) of a day number, step 1 of `civilFromDays`. -/
def cfdEra (z : Int) : Int := (z + 719468) / 146097

/-- Day within the 400-year era, in 0..146096. -/
def cfdDoe (z : Int) : Int := (z + 719468) - 146097 * cfdEra z

/-- Century within the era, in 0..3. -/
def cfdC (z : Int) : Int := (4 * cfdDoe z + 3) / 146097

/-- Day within the century. -/
def cfdDoc (z : Int) : Int := cfdDoe z - 36524 * cfdC z

/-- Year within the century, in 0..99 (March-based years). -/
def cfdJ (z : Int) : Int := (4 * cfdDoc z + 3) / 1461

/-- Day within the March-based year, in 0..365. -/
def cfdDoy (z : Int) : Int := cfdDoc z - (365 * cfdJ z + cfdJ z / 4)

/-- Year of era, in 0..399. -/
def cfdYoe (z : Int) : Int := 100 * cfdC z + cfdJ z

/-- March-based month index, in 0..11 (0 = March). -/
def cfdMp (z : Int) : Int := (5 * cfdDoy z + 2) / 153

/-- Civil day of month, in 1..31. -/
def cfdD (z : Int) : Int := cfdDoy z - (153 * cfdMp z + 2) / 5 + 1

/-- Civil month, in 1..12. -/
def cfdM (z : Int) : Int := if cfdMp z < 10 then cfdMp z + 3 else cfdMp z - 9

/-- Civil year. -/
def cfdY (z : Int) : Int :=
  cfdYoe z + 400 * cfdEra z + (if cfdM z ≤ 2 then 1 else 0)

/-- Proleptic-Gregorian decomposition of a day number into (year, month, day). -/
def civilFromDays (z : Int) : Int × Int × Int := (cfdY z, cfdM z, cfdD z)

/-- Milliseconds per day. -/
def msPerDay : Int := 86400000

/-- ECMAScript `Day(t)`. -/
def jsDay (t : Int) : Int := t / 86400000

/-- ECMAScript `TimeWithinDay(t)`. -/
def timeWithinDay (t : Int) : Int := t % 86400000

/-- ECMAScript `Date.prototype.getUTCFullYear` on time value `t`. -/
def getUTCFullYear (t : Int) : Int := (civilFromDays (jsDay t)).1

/-- ECMAScript `Date.prototype.getUTCMonth` (0-based month, 0 = January). -/
def getUTCMonth (t : Int) : Int := (civilFromDays (jsDay t)).2.1 - 1

/-- ECMAScript `Date.prototype.getUTCDate` (1-based day of month). -/
def getUTCDate (t : Int) : Int := (civilFromDays (jsDay t)).2.2

/-- ECMAScript `Date.prototype.getUTCHours`. -/
def getUTCHours (t : Int) : Int := (t / 3600000) % 24

/-- ECMAScript `Date.prototype.getUTCMinutes`. -/
def getUTCMinutes (t : Int) : Int := (t / 60000) % 60

/-- ECMAScript `Date.prototype.getUTCSeconds`. -/
def getUTCSeconds (t : Int) : Int := (t / 1000) % 60

/-- ECMAScript `Date.prototype.getUTCMilliseconds`. -/
def getUTCMilliseconds (t : Int) : Int := t % 1000

/-- ECMAScript `MakeFullYear`: a year argument in 0..99 means 1900 + year.
This rule is applied by `Date.UTC` and the `Date` constructor only. -/
def makeFullYear (y : Int) : Int := if 0 ≤ y ∧ y ≤ 99 then 1900 + y else y

/-- ECMAScript `MakeDay(y, m, dt)` (in days; `m` is 0-based and may lie
outside 0..11, `dt` may lie outside the month). -/
def makeDay (y m dt : Int) : Int :=
  daysFromCivil (y + m / 12) (m % 12 + 1) 1 + dt - 1

/-- ECMAScript `MakeDate`. -/
def makeDate (day time : Int) : Int := day * 86400000 + time

/-- ECMAScript `MakeTime` (milliseconds within the day). -/
def makeTime (h mi s ms : Int) : Int := h * 3600000 + mi * 60000 + s * 1000 + ms

/-- ECMAScript `TimeClip`: a time value of absolute value beyond 8.64e15 ms
is clipped to NaN (`none`); within the range it is kept exactly. -/
def timeClip (t : Int) : Option Int :=
  if -8640000000000000 ≤ t ∧ t ≤ 8640000000000000 then some t else none

/-- The unclipped time value composed by `Date.UTC` (month 0-based):
`MakeDate(MakeDay(MakeFullYear(y), m, d), MakeTime(h, mi, s, ms))`. -/
def jsDateUTCTimeValue (y m d h mi s ms : Int) : Int :=
  makeDate (makeDay (makeFullYear y) m d) (makeTime h mi s ms)

/-- ECMAScript `Date.UTC(y, m, d, h, mi, s, ms)` (month 0-based): the
composed time value, run through `TimeClip` (NaN beyond ±8.64e15 ms). -/
def jsDateUTC (y m d h mi s ms : Int) : Option Int :=
  timeClip (jsDateUTCTimeValue y m d h mi s ms)

/-- ECMAScript `Date.prototype.setUTCDate(dt)`: stores and returns
`TimeClip(MakeDate(MakeDay(year, month, dt), TimeWithinDay(t)))`. -/
def jsSetUTCDate (t dt : Int) : Option Int :=
  timeClip (makeDate (makeDay (getUTCFullYear t) (getUTCMonth t) dt) (timeWithinDay t))

/-- ECMAScript `Date.prototype.setUTCMonth(m)`: stores and returns the
`TimeClip`ped new time value. -/
def jsSetUTCMonth (t m : Int) : Option Int :=
  timeClip (makeDate (makeDay (getUTCFullYear t) m (getUTCDate t)) (timeWithinDay t))

/-! ### The DateTime value — src/core/ChronoDate.ts -/

/-- Error taxonomy.  `chronoError` is the `ChronoError` class of src/types.ts
(thrown by the `ChronoDateImpl` constructor), `parseError` is `ParseError`,
and `emptyInput` models the plain `Error` thrown by `min`/`max` on an empty
argument list, which the specification's taxonomy names `EmptyInput`. -/
inductive ChronoErr where
  | chronoError (msg : String)
  | parseError (msg : String)
  | emptyInput (msg : String)
deriving DecidableEq, Repr

/-- The immutable date value of src/core/ChronoDate.ts (interface `ChronoDate`
of src/types.ts).  `timestamp` is stored, exactly as in the source, where the
constructor computes it once (`new Date(Date.UTC(...)).getTime()`) and
freezes the object without checking it: when the composed time value falls
outside the `TimeClip` range the stored timestamp is NaN (`none`) while the
civil fields remain the validated numbers. -/
structure ChronoDate where
  year : Int
  month : Int
  day : Int
  hour : Int
  minute : Int
  second : Int
  millisecond : Int
  timestamp : Option Int
  timezone : String
deriving DecidableEq, Repr

/-- Decidable equality of `Except` results, for evaluating concrete runs of
the embedded operations inside proofs. -/
instance {e a : Type} [DecidableEq e] [DecidableEq a] : DecidableEq (Except e a) :=
  fun x y =>
    match x, y with
    | .ok u, .ok v =>
        if h : u = v then isTrue (by rw [h]) else isFalse (fun hc => h (Except.ok.inj hc))
    | .error u, .error v =>
        if h : u = v then isTrue (by rw [h]) else isFalse (fun hc => h (Except.error.inj hc))
    | .ok _, .error _ => isFalse (fun hc => Except.noConfusion hc)
    | .error _, .ok _ => isFalse (fun hc => Except.noConfusion hc)

/-- The `ChronoDateImpl` constructor / `dateFromComponents` factory: validates
the date and time fields, then derives `timestamp` via
`Date.UTC(year, month - 1, day, hour, minute, second, millisecond)`.
A thrown `ChronoError` is modelled as an `Except.error`. -/
def dateFromComponents (year month day hour minute second millisecond : Int)
    (timezone : String) : Except ChronoErr ChronoDate :=
  if !isValidDate year month day then
    .error (.chronoError ("Invalid date: " ++ toString year ++ "-" ++ toString month
      ++ "-" ++ toString day))
  else if !isValidTime hour minute second millisecond then
    .error (.chronoError ("Invalid time: " ++ toString hour ++ ":" ++ toString minute
      ++ ":" ++ toString second ++ "." ++ toString millisecond))
  else
    .ok { year := year, month := month, day := day, hour := hour, minute := minute,
          second := second, millisecond := millisecond,
          timestamp := jsDateUTC year (month - 1) day hour minute second millisecond,
          timezone := timezone }

/-- src/core/ChronoDate.ts `dateFromNative`: reads the UTC fields of the
native `Date` (here: its time value `t`, with `none` for an invalid/NaN
`Date`) and feeds them to the validating constructor.  On a NaN `Date` every
UTC field accessor returns NaN, `isValidDate(NaN, NaN, NaN)` is false (every
comparison with NaN is false, and `daysInMonth[NaN - 1] || 0` is 0, so
`day <= 0` fails), and the constructor throws
`ChronoError("Invalid date: NaN-NaN-NaN")` — the string interpolation of the
three NaN fields.  The source defaults `timezone` to "UTC"; callers here
always pass it explicitly. -/
def dateFromNative (t : Option Int) (timezone : String) : Except ChronoErr ChronoDate :=
  match t with
  | none => .error (.chronoError "Invalid date: NaN-NaN-NaN")
  | some t =>
      dateFromComponents (getUTCFullYear t) (getUTCMonth t + 1) (getUTCDate t)
        (getUTCHours t) (getUTCMinutes t) (getUTCSeconds t) (getUTCMilliseconds t) timezone

/-- src/core/ChronoDate.ts `dateFromTimestamp`: `dateFromNative(new Date(ts))`.
The `Date` constructor applies `TimeClip` to its numeric argument, so a
timestamp beyond ±8.64e15 ms produces an invalid `Date` and the call
throws. -/
def dateFromTimestamp (timestamp : Int) (timezone : String) : Except ChronoErr ChronoDate :=
  dateFromNative (timeClip timestamp) timezone

/-- `ChronoDateImpl.toISOString`: `YYYY-MM-DDTHH:mm:ss[.sss]Z`, the
fractional part present only when `millisecond > 0`. -/
def toISOString (d : ChronoDate) : String :=
  let date := padZero d.year 4 ++ "-" ++ padZero d.month 2 ++ "-" ++ padZero d.day 2
  let time := padZero d.hour 2 ++ ":" ++ padZero d.minute 2 ++ ":" ++ padZero d.second 2
  let ms := if d.millisecond > 0 then "." ++ padZero d.millisecond 3 else ""
  date ++ "T" ++ time ++ ms ++ "Z"

/-! ### Arithmetic — src/core/arithmetic.ts -/

/-- src/core/arithmetic.ts `addDays`: `native.setUTCDate(native.getUTCDate() +
days)` on `toNative()` (a `Date` holding `timestamp`), then `dateFromNative`.
On a NaN timestamp the native `Date` is invalid, `getUTCDate()` is NaN,
`setUTCDate(NaN)` stores NaN, and `dateFromNative` throws — NaN propagates,
modelled by `Option.bind`; `setUTCDate` itself applies `TimeClip`, so the
shifted value can also become NaN. -/
def addDays (d : ChronoDate) (days : Int) : Except ChronoErr ChronoDate :=
  dateFromNative (d.timestamp.bind (fun t => jsSetUTCDate t (getUTCDate t + days)))
    d.timezone

/-- src/core/arithmetic.ts `addMonths`: `native.setUTCMonth(native.getUTCMonth()
+ months)`, then `dateFromNative`; NaN propagation as in `addDays`. -/
def addMonths (d : ChronoDate) (months : Int) : Except ChronoErr ChronoDate :=
  dateFromNative (d.timestamp.bind (fun t => jsSetUTCMonth t (getUTCMonth t + months)))
    d.timezone

/-! ### Comparison — src/core/comparison.ts

The unit factors come from src/utils/constants.ts:
`MILLISECONDS_IN_SECOND = 1000`, `MILLISECONDS_IN_MINUTE = 60 * 1000`,
`MILLISECONDS_IN_HOUR = 60 * 60000`, `MILLISECONDS_IN_DAY = 24 * 3600000 =
86400000`, `MILLISECONDS_IN_WEEK = 7 * 86400000 = 604800000`; the evaluated
numbers appear inline below.

Timestamps can be NaN (`none`), so the JavaScript number operations used on
them are modelled with their NaN rules: `<`, `>` and `===` are false whenever
an operand is NaN, and subtraction propagates NaN. -/

/-- JavaScript `<` on possibly-NaN numbers: false whenever an operand is
NaN. -/
def jsLtNum : Option Int → Option Int → Bool
  | some x, some y => decide (x < y)
  | _, _ => false

/-- JavaScript `>` on possibly-NaN numbers. -/
def jsGtNum : Option Int → Option Int → Bool
  | some x, some y => decide (x > y)
  | _, _ => false

/-- JavaScript `===` on possibly-NaN numbers: `NaN === NaN` is false. -/
def jsEqNum : Option Int → Option Int → Bool
  | some x, some y => x == y
  | _, _ => false

/-- JavaScript subtraction on possibly-NaN numbers: NaN propagates. -/
def jsSubNum : Option Int → Option Int → Option Int
  | some x, some y => some (x - y)
  | _, _ => none

/-- The `Unit` union type of src/types.ts. -/
inductive TimeUnit where
  | year | month | day | hour | minute | second | millisecond | week
deriving DecidableEq, Repr

/-- src/core/comparison.ts `isBefore`: strict timestamp comparison
(`date1.timestamp < date2.timestamp`, false on NaN). -/
def isBefore (a b : ChronoDate) : Bool := jsLtNum a.timestamp b.timestamp

/-- src/core/comparison.ts `isAfter`. -/
def isAfter (a b : ChronoDate) : Bool := jsGtNum a.timestamp b.timestamp

/-- `Math.abs` on an exact integer. -/
def jsAbs (x : Int) : Int := if x < 0 then -x else x

/-- src/core/comparison.ts `isSame`: civil-field prefix equality per unit;
`millisecond` is `date1.timestamp === date2.timestamp` (false on NaN);
`week` compares `Math.floor(Math.abs(a.timestamp - b.timestamp) /
MILLISECONDS_IN_WEEK)` with `===` against 0 (false when the difference is
NaN). -/
def isSame (a b : ChronoDate) (unit : TimeUnit) : Bool :=
  match unit with
  | .year => a.year == b.year
  | .month => a.year == b.year && a.month == b.month
  | .day => a.year == b.year && a.month == b.month && a.day == b.day
  | .hour => a.year == b.year && a.month == b.month && a.day == b.day && a.hour == b.hour
  | .minute => a.year == b.year && a.month == b.month && a.day == b.day &&
      a.hour == b.hour && a.minute == b.minute
  | .second => a.year == b.year && a.month == b.month && a.day == b.day &&
      a.hour == b.hour && a.minute == b.minute && a.second == b.second
  | .millisecond => jsEqNum a.timestamp b.timestamp
  | .week =>
      match jsSubNum a.timestamp b.timestamp with
      | some v => jsAbs v / 604800000 == 0
      | none => false

/-- src/core/comparison.ts `diff`: `b.timestamp - a.timestamp` (NaN when
either timestamp is NaN, and NaN is preserved by `Math.floor` and division),
floor-divided by the unit factor for fixed-length units; anniversary-aware
counting from the civil fields for month and year — those two branches never
touch the timestamps and always return a real number. -/
def diff (a b : ChronoDate) (unit : TimeUnit) : Option Int :=
  let msDiff := jsSubNum b.timestamp a.timestamp
  match unit with
  | .millisecond => msDiff
  | .second => msDiff.map (fun v => v / 1000)
  | .minute => msDiff.map (fun v => v / 60000)
  | .hour => msDiff.map (fun v => v / 3600000)
  | .day => msDiff.map (fun v => v / 86400000)
  | .week => msDiff.map (fun v => v / 604800000)
  | .month =>
      let months := (b.year - a.year) * 12 + (b.month - a.month)
      some (if b.day < a.day then months - 1 else months)
  | .year =>
      let years := b.year - a.year
      some (if b.month < a.month ∨ (b.month = a.month ∧ b.day < a.day) then years - 1
            else years)

/-- src/core/comparison.ts `min`: `dates.reduce((earliest, current) =>
isBefore(current, earliest) ? current : earliest)`; an empty argument list
throws (the spec's `EmptyInput`). -/
def chronoMin (dates : List ChronoDate) : Except ChronoErr ChronoDate :=
  match dates with
  | [] => .error (.emptyInput "Cannot find minimum of empty array")
  | d :: rest =>
      .ok (rest.foldl (fun earliest current =>
        if isBefore current earliest then current else earliest) d)

/-- src/core/comparison.ts `max`. -/
def chronoMax (dates : List ChronoDate) : Except ChronoErr ChronoDate :=
  match dates with
  | [] => .error (.emptyInput "Cannot find maximum of empty array")
  | d :: rest =>
      .ok (rest.foldl (fun latest current =>
        if isAfter current latest then current else latest) d)

/-! ### ISO 8601 parser — src/parse/iso.ts

JavaScript strings are sequences of UTF-16 code units; every character
involved here is ASCII, so a `List Char` is a faithful representation and the
parser is defined over `List Char` with a `String` wrapper.  The inline
regular expressions of the source are modelled by the pattern-matching
functions `matchDateChars` / `matchTZSuffix` / `matchTimeChars`; `\d` in a
JavaScript regex (without the unicode flag) is exactly the ASCII digits,
matching `Char.isDigit`. -/

/-- JavaScript `String.prototype.split` with a one-character separator:
splits at every occurrence, keeping empty segments (a trailing separator
yields a trailing empty segment). -/
def splitOnChar (sep : Char) : List Char → List (List Char)
  | [] => [[]]
  | c :: rest =>
      if c = sep then [] :: splitOnChar sep rest
      else
        match splitOnChar sep rest with
        | [] => [[c]]
        | p :: ps => (c :: p) :: ps

/-- `parseInt(s, 10)` on a (non-empty, all-digit) string of ASCII digits. -/
def digitsToInt (cs : List Char) : Int :=
  cs.foldl (fun acc c => 10 * acc + ((c.toNat : Int) - 48)) 0

/-- The date regex of parseISO: matches exactly `(\d{4})-(\d{2})-(\d{2})` and
returns the three `parseInt` results. -/
def matchDateChars : List Char → Option (Int × Int × Int)
  | [y1, y2, y3, y4, '-', m1, m2, '-', d1, d2] =>
      if y1.isDigit && y2.isDigit && y3.isDigit && y4.isDigit &&
         m1.isDigit && m2.isDigit && d1.isDigit && d2.isDigit then
        some (digitsToInt [y1, y2, y3, y4], digitsToInt [m1, m2], digitsToInt [d1, d2])
      else none
  | _ => none

/-- The timezone-offset suffix regex `([+-]\d{2}:\d{2})$` of parseISO: on a
match, the source stores the matched suffix as the timezone label and drops
the last six characters (`timeStr.slice(0, -6)`). -/
def matchTZSuffix (s : List Char) : Option (List Char × String) :=
  if s.length < 6 then none
  else
    match s.drop (s.length - 6) with
    | [sg, h1, h2, ':', m1, m2] =>
        if (sg == '+' || sg == '-') && h1.isDigit && h2.isDigit &&
           m1.isDigit && m2.isDigit then
          some (s.take (s.length - 6), String.mk [sg, h1, h2, ':', m1, m2])
        else none
    | _ => none

/-- The time regex `^(\d{2}):(\d{2}):(\d{2})(?:\.(\d{1,3}))?$` of parseISO,
with the fractional digits right-padded to milliseconds
(`timeMatch[4].padEnd(3, '0')`). -/
def matchTimeChars : List Char → Option (Int × Int × Int × Int)
  | [h1, h2, ':', m1, m2, ':', s1, s2] =>
      if h1.isDigit && h2.isDigit && m1.isDigit && m2.isDigit &&
         s1.isDigit && s2.isDigit then
        some (digitsToInt [h1, h2], digitsToInt [m1, m2], digitsToInt [s1, s2], 0)
      else none
  | [h1, h2, ':', m1, m2, ':', s1, s2, '.', f1] =>
      if h1.isDigit && h2.isDigit && m1.isDigit && m2.isDigit &&
         s1.isDigit && s2.isDigit && f1.isDigit then
        some (digitsToInt [h1, h2], digitsToInt [m1, m2], digitsToInt [s1, s2],
          digitsToInt [f1, '0', '0'])
      else none
  | [h1, h2, ':', m1, m2, ':', s1, s2, '.', f1, f2] =>
      if h1.isDigit && h2.isDigit && m1.isDigit && m2.isDigit &&
         s1.isDigit && s2.isDigit && f1.isDigit && f2.isDigit then
        some (digitsToInt [h1, h2], digitsToInt [m1, m2], digitsToInt [s1, s2],
          digitsToInt [f1, f2, '0'])
      else none
  | [h1, h2, ':', m1, m2, ':', s1, s2, '.', f1, f2, f3] =>
      if h1.isDigit && h2.isDigit && m1.isDigit && m2.isDigit &&
         s1.isDigit && s2.isDigit && f1.isDigit && f2.isDigit && f3.isDigit then
        some (digitsToInt [h1, h2], digitsToInt [m1, m2], digitsToInt [s1, s2],
          digitsToInt [f1, f2, f3])
      else none
  | _ => none

/-- The default time section `'00:00:00'` used when the string has no time
part (or an empty one): `const timePart = parts[1] || '00:00:00'`. -/
def defaultTimeChars : List Char := ['0', '0', ':', '0', '0', ':', '0', '0']

/-- src/parse/iso.ts `parseISO` over the character list of the input. -/
def parseISOChars (cs : List Char) : Except ChronoErr ChronoDate :=
  if cs.isEmpty then .error (.parseError "Invalid input: expected ISO 8601 string")
  else
    let parts := splitOnChar 'T' cs
    if parts.length > 2 then
      .error (.parseError ("Invalid ISO 8601 format: " ++ String.mk cs))
    else
      let datePart := parts.headD []
      let timePart :=
        match parts with
        | _ :: t :: _ => if t.isEmpty then defaultTimeChars else t
        | _ => defaultTimeChars
      match matchDateChars datePart with
      | none => .error (.parseError ("Invalid date format: " ++ String.mk datePart))
      | some (year, month, day) =>
          if !isValidDate year month day then
            .error (.parseError ("Invalid date: " ++ toString year ++ "-"
              ++ toString month ++ "-" ++ toString day))
          else
            let stripped :=
              if timePart.getLast? = some 'Z' then (timePart.dropLast, "UTC")
              else
                match matchTZSuffix timePart with
                | some (rest, tz) => (rest, tz)
                | none => (timePart, "UTC")
            match matchTimeChars stripped.1 with
            | none =>
                .error (.parseError ("Invalid time format: " ++ String.mk stripped.1))
            | some (hour, minute, second, millisecond) =>
                if !isValidTime hour minute second millisecond then
                  .error (.parseError ("Invalid time: " ++ toString hour ++ ":"
                    ++ toString minute ++ ":" ++ toString second ++ "."
                    ++ toString millisecond))
                else
                  dateFromComponents year month day hour minute second millisecond
                    stripped.2

/-- src/parse/iso.ts `parseISO`. -/
def parseISO (s : String) : Except ChronoErr ChronoDate := parseISOChars s.data

/-! ### Formatter preset table and compile cache — src/format/tokens.ts and
the format engine

A compiled formatter closure is produced deterministically from the pattern
string it was compiled from (the token scan is a pure function of the
pattern), so for the caching behaviour studied here a compiled formatter is
represented by that pattern string.  The `Map` cache is represented as an
association list with insert-at-front (a later `set` of the same key shadows
the older entry for `get`). -/

/-- The `FORMAT_PRESETS` table of src/format/tokens.ts. -/
def FORMAT_PRESETS : List (String × String) :=
  [("ISO", "YYYY-MM-DDTHH:mm:ss.SSSZ"),
   ("ISO_DATE", "YYYY-MM-DD"),
   ("ISO_TIME", "HH:mm:ss"),
   ("RFC2822", "ddd, DD MMM YYYY HH:mm:ss Z"),
   ("HTTP", "ddd, DD MMM YYYY HH:mm:ss [GMT]"),
   ("SQL", "YYYY-MM-DD HH:mm:ss"),
   ("SHORT", "M/D/YYYY"),
   ("MEDIUM", "MMM D, YYYY"),
   ("LONG", "MMMM D, YYYY"),
   ("FULL", "dddd, MMMM D, YYYY"),
   ("TIME", "h:mm A"),
   ("TIME_24", "HH:mm"),
   ("TIME_WITH_SECONDS", "h:mm:ss A"),
   ("DATETIME_SHORT", "M/D/YYYY h:mm A"),
   ("DATETIME_MEDIUM", "MMM D, YYYY h:mm A"),
   ("DATETIME_LONG", "MMMM D, YYYY h:mm A")]

/-- `FORMAT_PRESETS[formatStr]` (an object-property read: `none` when the
string is not a preset name). -/
def lookupPreset (s : String) : Option String :=
  (FORMAT_PRESETS.find? (fun p => p.1 == s)).map (fun p => p.2)

/-- The formatter cache: pattern-string key to compiled formatter
(represented by the pattern string it was compiled from). -/
def cacheLookup (cache : List (String × String)) (k : String) : Option String :=
  (cache.find? (fun p => p.1 == k)).map (fun p => p.2)

/-- Result of one `compileFormatter` call: the updated cache and the compiled
formatter.  A call is a cache hit exactly when `cacheLookup` on its argument
returns `some` (the code's initial probe), so hit-ness is expressed through
`cacheLookup` directly. -/
structure CompileOutcome where
  cache : List (String × String)
  compiled : String
deriving DecidableEq, Repr

/-- The format engine's `compileFormatter`, fuelled: probe the cache; on a
miss, if the string is a preset name recurse on its expansion and return that
result unchanged (the early `return compileFormatter(preset)` — note the
preset-name key itself is never inserted); otherwise compile and cache under
the input string.  The recursion of the source is bounded because no preset
expansion is itself a preset name, so fuel 2 realises it exactly
(`compileFormatter` below). -/
def compileFormatterFuel : Nat → List (String × String) → String → Option CompileOutcome
  | 0, _, _ => none
  | Nat.succ fuel, cache, formatStr =>
      match cacheLookup cache formatStr with
      | some cached => some ⟨cache, cached⟩
      | none =>
          match lookupPreset formatStr with
          | some preset => compileFormatterFuel fuel cache preset
          | none => some ⟨(formatStr, formatStr) :: cache, formatStr⟩

/-- The format engine's `compileFormatter` (recursion depth at most 2). -/
def compileFormatter (cache : List (String × String)) (formatStr : String) :
    Option CompileOutcome :=
  compileFormatterFuel 2 cache formatStr

/-! ### Specification-side definitions

These definitions follow the words of the specification (spec.md) rather than
the source; the refinement theorems below compare the source-derived
definitions against them. -/

/-- From the specification (§3): the UTC linear time in milliseconds since
the epoch computed from the civil fields under proleptic Gregorian rules. -/
def specUtcTimestamp (y m d h mi s ms : Int) : Int :=
  daysFromCivil y m d * 86400000 + h * 3600000 + mi * 60000 + s * 1000 + ms

/-- From the specification (§4.5, `isSame` with unit `week`): the zero-indexed
7-day bucket of a timestamp, measured from the epoch. -/
def specEpochWeekBucket (t : Int) : Int := t / 604800000

/-- From the specification (§4.1): the days-in-month table
{31, 28/29, 31, 30, 31, 30, 31, 31, 30, 31, 30, 31}, 29 for February in a
leap year, spelled out month by month; 0 outside 1..12 (the source returns 0
there, see the C7 theorems). -/
def specDaysInMonth (y m : Int) : Int :=
  if m = 1 then 31
  else if m = 2 then (if isLeapYear y then 29 else 28)
  else if m = 3 then 31
  else if m = 4 then 30
  else if m = 5 then 31
  else if m = 6 then 30
  else if m = 7 then 31
  else if m = 8 then 31
  else if m = 9 then 30
  else if m = 10 then 31
  else if m = 11 then 30
  else if m = 12 then 31
  else 0

/-- Big-endian decimal digit characters of a natural number, the reference
form of `Nat.repr` (proved equal in `toDigitsCore_eq_natRepChars`). -/
def natRepChars (n : Nat) : List Char :=
  if h : n < 10 then [Nat.digitChar n]
  else natRepChars (n / 10) ++ [Nat.digitChar (n % 10)]
decreasing_by exact Nat.div_lt_self (by omega) (by omega)

/-! ### Correctness of the host-date model -/

/-- Bounds and defining identity of the era split of a day number. -/
theorem cfd_basic (z : Int) :
    0 ≤ cfdDoe z ∧ cfdDoe z ≤ 146096 ∧ z + 719468 = 146097 * cfdEra z + cfdDoe z := by
  unfold cfdDoe cfdEra
  omega

/-- Decomposition of a day-of-era into century, year-of-century and
day-of-year, with the leap-year divisibility marker for day 365. -/
theorem doe_decomp (doe c doc j doy yoe : Int) (h0 : 0 ≤ doe) (h1 : doe ≤ 146096)
    (hc : c = (4 * doe + 3) / 146097)
    (hdoc : doc = doe - 36524 * c)
    (hj : j = (4 * doc + 3) / 1461)
    (hdoy : doy = doc - (365 * j + j / 4))
    (hyoe : yoe = 100 * c + j) :
    0 ≤ doy ∧ doy ≤ 365 ∧
      365 * yoe + yoe / 4 - yoe / 100 + doy = doe ∧
      0 ≤ yoe ∧ yoe ≤ 399 ∧
      (doy = 365 → ((yoe + 1) % 4 = 0 ∧ ((yoe + 1) % 100 ≠ 0 ∨ (yoe + 1) % 400 = 0))) := by
  have hcb : 0 ≤ c ∧ c ≤ 3 := by omega
  have hdocb : 0 ≤ doc ∧ doc ≤ 36524 := by omega
  have hdocb2 : c ≤ 2 → doc ≤ 36523 := by omega
  have hjb : 0 ≤ j ∧ j ≤ 99 := by omega
  have h4 : yoe / 4 = 25 * c + j / 4 := by omega
  have h100 : yoe / 100 = c := by omega
  have h4' : (yoe + 1) % 4 = (j + 1) % 4 := by omega
  have h100' : (yoe + 1) % 100 = (j + 1) % 100 := by omega
  refine ⟨by omega, by omega, by omega, by omega, by omega, ?_⟩
  intro h365
  have hj4 : (j + 1) % 4 = 0 := by omega
  by_cases hj99 : j = 99
  · have hc3 : c = 3 := by omega
    have hyoe399 : yoe = 399 := by omega
    exact ⟨by omega, Or.inr (by omega)⟩
  · exact ⟨by omega, Or.inl (by omega)⟩

/-- Extraction of civil month and day from a day of the March-based year. -/
theorem doy_decomp (doy mp d m : Int) (h0 : 0 ≤ doy) (h1 : doy ≤ 365)
    (hmp : mp = (5 * doy + 2) / 153)
    (hd : d = doy - (153 * mp + 2) / 5 + 1)
    (hm : m = if mp < 10 then mp + 3 else mp - 9) :
    1 ≤ m ∧ m ≤ 12 ∧ 1 ≤ d ∧
      (if m > 2 then m - 3 else m + 9) = mp ∧
      (153 * mp + 2) / 5 + d - 1 = doy ∧
      d ≤ (if m = 1 then 31 else if m = 2 then 29 else if m = 3 then 31
           else if m = 4 then 30 else if m = 5 then 31 else if m = 6 then 30
           else if m = 7 then 31 else if m = 8 then 31 else if m = 9 then 30
           else if m = 10 then 31 else if m = 11 then 30 else 31) ∧
      (m = 2 → d = 29 → doy = 365) := by
  have hmpb : 0 ≤ mp ∧ mp ≤ 11 := by omega
  have hmp11 : mp = 0 ∨ mp = 1 ∨ mp = 2 ∨ mp = 3 ∨ mp = 4 ∨ mp = 5 ∨ mp = 6 ∨
      mp = 7 ∨ mp = 8 ∨ mp = 9 ∨ mp = 10 ∨ mp = 11 := by omega
  rcases hmp11 with h|h|h|h|h|h|h|h|h|h|h|h <;> subst h <;> norm_num at hm <;>
    subst hm <;> norm_num <;> omega

/-- All structural facts about the decomposition `civilFromDays` of a day
number `z`, bundled. -/
theorem cfd_core (z : Int) :
    1 ≤ cfdM z ∧ cfdM z ≤ 12 ∧ 1 ≤ cfdD z ∧
      (if cfdM z > 2 then cfdM z - 3 else cfdM z + 9) = cfdMp z ∧
      (153 * cfdMp z + 2) / 5 + cfdD z - 1 = cfdDoy z ∧
      cfdD z ≤ (if cfdM z = 1 then 31 else if cfdM z = 2 then 29
           else if cfdM z = 3 then 31 else if cfdM z = 4 then 30
           else if cfdM z = 5 then 31 else if cfdM z = 6 then 30
           else if cfdM z = 7 then 31 else if cfdM z = 8 then 31
           else if cfdM z = 9 then 30 else if cfdM z = 10 then 31
           else if cfdM z = 11 then 30 else 31) ∧
      (cfdM z = 2 → cfdD z = 29 → cfdDoy z = 365) ∧
      365 * cfdYoe z + cfdYoe z / 4 - cfdYoe z / 100 + cfdDoy z = cfdDoe z ∧
      0 ≤ cfdYoe z ∧ cfdYoe z ≤ 399 ∧
      (cfdDoy z = 365 →
        ((cfdYoe z + 1) % 4 = 0 ∧
          ((cfdYoe z + 1) % 100 ≠ 0 ∨ (cfdYoe z + 1) % 400 = 0))) := by
  obtain ⟨b0, b1, _⟩ := cfd_basic z
  obtain ⟨e0, e1, e2, e3, e4, e5⟩ :=
    doe_decomp (cfdDoe z) (cfdC z) (cfdDoc z) (cfdJ z) (cfdDoy z) (cfdYoe z)
      b0 b1 rfl rfl rfl rfl rfl
  obtain ⟨m0, m1, m2, m3, m4, m5, m6⟩ :=
    doy_decomp (cfdDoy z) (cfdMp z) (cfdD z) (cfdM z) e0 e1 rfl rfl rfl
  exact ⟨m0, m1, m2, m3, m4, m5, m6, e2, e3, e4, e5⟩

/-- Propositional form of the leap-year test. -/
theorem isLeapYear_eq_true_iff (y : Int) :
    isLeapYear y = true ↔ ((y % 4 = 0 ∧ y % 100 ≠ 0) ∨ y % 400 = 0) := by
  simp [isLeapYear, Bool.or_eq_true, Bool.and_eq_true, beq_iff_eq, bne_iff_ne]

/-- A day number decomposing to February 29 lies in a leap year. -/
theorem cfdY_leap (z : Int) (h2 : cfdM z = 2) (h29 : cfdD z = 29) :
    isLeapYear (cfdY z) = true := by
  obtain ⟨_, _, _, _, _, _, m6, _, _, _, e5⟩ := cfd_core z
  have h365 := m6 h2 h29
  obtain ⟨l4, l100⟩ := e5 h365
  have hy : cfdY z = cfdYoe z + 400 * cfdEra z + 1 := by
    unfold cfdY
    rw [if_pos (by rw [h2])]
  rw [isLeapYear_eq_true_iff, hy]
  rcases l100 with l100 | l100
  · exact Or.inl ⟨by omega, by omega⟩
  · exact Or.inr (by omega)

/-- Day-count upper bound implies validity against `getDaysInMonth`. -/
theorem le_getDaysInMonth_of (y m d : Int) (h1 : 1 ≤ m) (h2 : m ≤ 12)
    (hF : d ≤ (if m = 1 then 31 else if m = 2 then 29 else if m = 3 then 31
           else if m = 4 then 30 else if m = 5 then 31 else if m = 6 then 30
           else if m = 7 then 31 else if m = 8 then 31 else if m = 9 then 30
           else if m = 10 then 31 else if m = 11 then 30 else 31))
    (hL : m = 2 → d = 29 → isLeapYear y = true) :
    d ≤ getDaysInMonth y m := by
  interval_cases m <;> norm_num at hF
  · have ht : getDaysInMonth y 1 = 31 := rfl
    omega
  · cases hl : isLeapYear y
    · have ht : getDaysInMonth y 2 = 28 := by
        simp [getDaysInMonth, hl]
        rfl
      have hne : d ≠ 29 := fun hd => by rw [hL rfl hd] at hl; cases hl
      omega
    · have ht : getDaysInMonth y 2 = 29 := by
        simp [getDaysInMonth, hl]
      omega
  · have ht : getDaysInMonth y 3 = 31 := rfl
    omega
  · have ht : getDaysInMonth y 4 = 30 := rfl
    omega
  · have ht : getDaysInMonth y 5 = 31 := rfl
    omega
  · have ht : getDaysInMonth y 6 = 30 := rfl
    omega
  · have ht : getDaysInMonth y 7 = 31 := rfl
    omega
  · have ht : getDaysInMonth y 8 = 31 := rfl
    omega
  · have ht : getDaysInMonth y 9 = 30 := rfl
    omega
  · have ht : getDaysInMonth y 10 = 31 := rfl
    omega
  · have ht : getDaysInMonth y 11 = 30 := rfl
    omega
  · have ht : getDaysInMonth y 12 = 31 := rfl
    omega

/-- The decomposition of any day number is a valid calendar date. -/
theorem cfd_isValidDate (z : Int) : isValidDate (cfdY z) (cfdM z) (cfdD z) = true := by
  obtain ⟨m0, m1, m2, _, _, m5, m6, _, _, _, _⟩ := cfd_core z
  have hle : cfdD z ≤ getDaysInMonth (cfdY z) (cfdM z) :=
    le_getDaysInMonth_of (cfdY z) (cfdM z) (cfdD z) m0 m1 m5
      (fun h2 h29 => cfdY_leap z h2 h29)
  unfold isValidDate
  rw [if_neg (by simp only [Bool.or_eq_true, decide_eq_true_eq]; omega)]
  rw [if_neg (by omega)]
  simpa using hle

/-- `daysFromCivil` left-inverts `civilFromDays`: composing a decomposed day
number reproduces it. -/
theorem daysFromCivil_cfd (z : Int) :
    daysFromCivil (cfdY z) (cfdM z) (cfdD z) = z := by
  obtain ⟨b0, b1, b2⟩ := cfd_basic z
  obtain ⟨_, _, _, m3, m4, _, _, e2, e3, e4, _⟩ := cfd_core z
  have h1 : dfcY2 (cfdY z) (cfdM z) = cfdYoe z + 400 * cfdEra z := by
    unfold dfcY2 cfdY
    by_cases h : cfdM z ≤ 2
    · rw [if_pos h, if_pos h]
      ring
    · rw [if_neg h, if_neg h]
      ring
  have h2 : dfcEra (cfdY z) (cfdM z) = cfdEra z := by
    unfold dfcEra
    rw [h1]
    omega
  have h3 : dfcYoe (cfdY z) (cfdM z) = cfdYoe z := by
    unfold dfcYoe
    rw [h1, h2]
    ring
  have h4 : dfcMp (cfdM z) = cfdMp z := m3
  have h5 : dfcDoy (cfdM z) (cfdD z) = cfdDoy z := by
    unfold dfcDoy
    rw [h4]
    omega
  have h6 : dfcDoe (cfdY z) (cfdM z) (cfdD z) = cfdDoe z := by
    unfold dfcDoe
    rw [h3, h5]
    omega
  unfold daysFromCivil
  rw [h2, h6]
  omega

/-- `daysFromCivil` is affine in the day argument. -/
theorem daysFromCivil_day_affine (y m d : Int) :
    daysFromCivil y m d = daysFromCivil y m 1 + d - 1 := by
  unfold daysFromCivil dfcDoe dfcDoy
  ring

/-- `MakeDay` with an in-range 0-based month is `daysFromCivil` of the
1-based month. -/
theorem makeDay_std (y m d : Int) (h0 : 0 ≤ m) (h1 : m ≤ 11) :
    makeDay y m d = daysFromCivil y (m + 1) d := by
  unfold makeDay
  have e1 : m / 12 = 0 := by omega
  have e2 : m % 12 = m := by omega
  rw [e1, e2, add_zero, daysFromCivil_day_affine y (m + 1) d]

/-- Bounds and recomposition of the time-of-day fields of a time value. -/
theorem timeFields (t : Int) :
    0 ≤ getUTCHours t ∧ getUTCHours t ≤ 23 ∧
      0 ≤ getUTCMinutes t ∧ getUTCMinutes t ≤ 59 ∧
      0 ≤ getUTCSeconds t ∧ getUTCSeconds t ≤ 59 ∧
      0 ≤ getUTCMilliseconds t ∧ getUTCMilliseconds t ≤ 999 ∧
      makeTime (getUTCHours t) (getUTCMinutes t) (getUTCSeconds t)
        (getUTCMilliseconds t) = timeWithinDay t ∧
      t = 86400000 * jsDay t + timeWithinDay t := by
  unfold getUTCHours getUTCMinutes getUTCSeconds getUTCMilliseconds makeTime
    timeWithinDay jsDay
  omega

/-- `isValidTime` holds for in-range fields. -/
theorem isValidTime_true_of (h mi s ms : Int) (hh : 0 ≤ h ∧ h ≤ 23)
    (hm : 0 ≤ mi ∧ mi ≤ 59) (hs : 0 ≤ s ∧ s ≤ 59) (hms : 0 ≤ ms ∧ ms ≤ 999) :
    isValidTime h mi s ms = true := by
  unfold isValidTime
  simp only [Bool.and_eq_true, decide_eq_true_eq]
  omega

/-- The validated constructor on already-valid fields. -/
theorem dateFromComponents_ok (y m d h mi s ms : Int) (tz : String)
    (h1 : isValidDate y m d = true) (h2 : isValidTime h mi s ms = true) :
    dateFromComponents y m d h mi s ms tz =
      .ok { year := y, month := m, day := d, hour := h, minute := mi, second := s,
            millisecond := ms, timestamp := jsDateUTC y (m - 1) d h mi s ms,
            timezone := tz } := by
  unfold dateFromComponents
  rw [h1, h2]
  rfl

/-- `dateFromNative` on a NaN time value throws the NaN-field error. -/
theorem dateFromNative_none (tz : String) :
    dateFromNative none tz = .error (.chronoError "Invalid date: NaN-NaN-NaN") := rfl

/-- `dateFromNative` on any real time value returns the decomposed fields. -/
theorem dateFromNative_ok (t : Int) (tz : String) :
    dateFromNative (some t) tz =
      .ok { year := cfdY (jsDay t), month := cfdM (jsDay t), day := cfdD (jsDay t),
            hour := getUTCHours t, minute := getUTCMinutes t,
            second := getUTCSeconds t, millisecond := getUTCMilliseconds t,
            timestamp := jsDateUTC (cfdY (jsDay t)) (cfdM (jsDay t) - 1)
              (cfdD (jsDay t)) (getUTCHours t) (getUTCMinutes t)
              (getUTCSeconds t) (getUTCMilliseconds t),
            timezone := tz } := by
  obtain ⟨t0, t1, t2, t3, t4, t5, t6, t7, _, _⟩ := timeFields t
  have hval := cfd_isValidDate (jsDay t)
  have htime := isValidTime_true_of (getUTCHours t) (getUTCMinutes t)
    (getUTCSeconds t) (getUTCMilliseconds t) ⟨t0, t1⟩ ⟨t2, t3⟩ ⟨t4, t5⟩ ⟨t6, t7⟩
  have hred : dateFromNative (some t) tz =
      dateFromComponents (getUTCFullYear t) (getUTCMonth t + 1) (getUTCDate t)
        (getUTCHours t) (getUTCMinutes t) (getUTCSeconds t)
        (getUTCMilliseconds t) tz := rfl
  rw [hred]
  have hmonth : getUTCMonth t + 1 = cfdM (jsDay t) := by
    unfold getUTCMonth civilFromDays
    ring
  have hyear : getUTCFullYear t = cfdY (jsDay t) := rfl
  have hday : getUTCDate t = cfdD (jsDay t) := rfl
  rw [hmonth, hyear, hday,
    dateFromComponents_ok _ _ _ _ _ _ _ _ hval htime]

/-- When the time value lies inside the `TimeClip` range and its decomposed
year avoids the `MakeFullYear` band 0..99, the reconstructed timestamp of
`dateFromNative` is the original time value. -/
theorem dateFromNative_timestamp (t : Int) (tz : String)
    (hr : -8640000000000000 ≤ t ∧ t ≤ 8640000000000000)
    (hy : cfdY (jsDay t) < 0 ∨ 100 ≤ cfdY (jsDay t)) :
    dateFromNative (some t) tz =
      .ok { year := cfdY (jsDay t), month := cfdM (jsDay t), day := cfdD (jsDay t),
            hour := getUTCHours t, minute := getUTCMinutes t,
            second := getUTCSeconds t, millisecond := getUTCMilliseconds t,
            timestamp := some t, timezone := tz } := by
  rw [dateFromNative_ok t tz]
  obtain ⟨m0, m1, _⟩ := cfd_core (jsDay t)
  obtain ⟨_, _, _, _, _, _, _, _, ht8, ht9⟩ := timeFields t
  have hts : jsDateUTCTimeValue (cfdY (jsDay t)) (cfdM (jsDay t) - 1) (cfdD (jsDay t))
      (getUTCHours t) (getUTCMinutes t) (getUTCSeconds t) (getUTCMilliseconds t)
      = t := by
    unfold jsDateUTCTimeValue
    have hfy : makeFullYear (cfdY (jsDay t)) = cfdY (jsDay t) := by
      unfold makeFullYear
      rw [if_neg (by omega)]
    rw [hfy, makeDay_std _ _ _ (by omega) (by omega)]
    have hm1 : cfdM (jsDay t) - 1 + 1 = cfdM (jsDay t) := by ring
    rw [hm1, daysFromCivil_cfd (jsDay t), ht8]
    unfold makeDate
    omega
  have hts2 : jsDateUTC (cfdY (jsDay t)) (cfdM (jsDay t) - 1) (cfdD (jsDay t))
      (getUTCHours t) (getUTCMinutes t) (getUTCSeconds t) (getUTCMilliseconds t)
      = some t := by
    unfold jsDateUTC
    rw [hts]
    unfold timeClip
    rw [if_pos hr]
  rw [hts2]

/-- Field bounds encoded by a successful `isValidDate`. -/
theorem isValidDate_bounds (y m d : Int) (h : isValidDate y m d = true) :
    1 ≤ m ∧ m ≤ 12 ∧ 1 ≤ d ∧ d ≤ getDaysInMonth y m := by
  unfold isValidDate at h
  by_cases h1 : (m < 1 || m > 12) = true
  · rw [if_pos h1] at h
    cases h
  · rw [if_neg h1] at h
    by_cases h2 : d < 1
    · rw [if_pos h2] at h
      cases h
    · rw [if_neg h2] at h
      simp only [Bool.or_eq_true, decide_eq_true_eq] at h1
      simp only [decide_eq_true_eq] at h
      exact ⟨by omega, by omega, by omega, h⟩

/-- Field bounds encoded by a successful `isValidTime`. -/
theorem isValidTime_bounds (h mi s ms : Int) (hv : isValidTime h mi s ms = true) :
    0 ≤ h ∧ h ≤ 23 ∧ 0 ≤ mi ∧ mi ≤ 59 ∧ 0 ≤ s ∧ s ≤ 59 ∧ 0 ≤ ms ∧ ms ≤ 999 := by
  unfold isValidTime at hv
  simp only [Bool.and_eq_true, decide_eq_true_eq] at hv
  omega

/-- The time value composed by `Date.UTC` agrees with the specification's
civil-to-linear map whenever the year avoids the `MakeFullYear` band
0..99. -/
theorem jsDateUTC_spec (y m d h mi s ms : Int) (hm : 1 ≤ m ∧ m ≤ 12)
    (hy : y < 0 ∨ 100 ≤ y) :
    jsDateUTCTimeValue y (m - 1) d h mi s ms = specUtcTimestamp y m d h mi s ms := by
  unfold jsDateUTCTimeValue specUtcTimestamp makeDate makeTime
  have hfy : makeFullYear y = y := by
    unfold makeFullYear
    rw [if_neg (by omega)]
  rw [hfy, makeDay_std y (m - 1) d (by omega) (by omega)]
  have hm1 : m - 1 + 1 = m := by ring
  rw [hm1]
  ring

/-- `setUTCDate(getUTCDate() + n)` is the `TimeClip` of the exact shift by
`n` days. -/
theorem jsSetUTCDate_shift (t n : Int) :
    jsSetUTCDate t (getUTCDate t + n) = timeClip (t + n * 86400000) := by
  obtain ⟨m0, m1, _⟩ := cfd_core (jsDay t)
  obtain ⟨_, _, _, _, _, _, _, _, _, ht9⟩ := timeFields t
  unfold jsSetUTCDate
  have hyear : getUTCFullYear t = cfdY (jsDay t) := rfl
  have hday : getUTCDate t = cfdD (jsDay t) := rfl
  have hmonth : getUTCMonth t = cfdM (jsDay t) - 1 := rfl
  rw [hyear, hday, hmonth, makeDay_std _ _ _ (by omega) (by omega)]
  have hm1 : cfdM (jsDay t) - 1 + 1 = cfdM (jsDay t) := by ring
  rw [hm1, daysFromCivil_day_affine]
  have hz : daysFromCivil (cfdY (jsDay t)) (cfdM (jsDay t)) 1 + cfdD (jsDay t) - 1
      = jsDay t := by
    rw [← daysFromCivil_day_affine]
    exact daysFromCivil_cfd (jsDay t)
  unfold makeDate
  congr 1
  omega

/-- `addDays` on a real timestamp, with the shifted time value inside the
`TimeClip` range and a safe target year: the result is `Except.ok` and its
timestamp is the exact linear shift. -/
theorem addDays_ok (d : ChronoDate) (t n : Int) (ht : d.timestamp = some t)
    (hr : -8640000000000000 ≤ t + n * 86400000 ∧
          t + n * 86400000 ≤ 8640000000000000)
    (hy : cfdY (jsDay (t + n * 86400000)) < 0 ∨
          100 ≤ cfdY (jsDay (t + n * 86400000))) :
    addDays d n =
      .ok { year := cfdY (jsDay (t + n * 86400000)),
            month := cfdM (jsDay (t + n * 86400000)),
            day := cfdD (jsDay (t + n * 86400000)),
            hour := getUTCHours (t + n * 86400000),
            minute := getUTCMinutes (t + n * 86400000),
            second := getUTCSeconds (t + n * 86400000),
            millisecond := getUTCMilliseconds (t + n * 86400000),
            timestamp := some (t + n * 86400000), timezone := d.timezone } := by
  have hb : d.timestamp.bind (fun u => jsSetUTCDate u (getUTCDate u + n)) =
      jsSetUTCDate t (getUTCDate t + n) := by
    rw [ht]
    rfl
  unfold addDays
  rw [hb, jsSetUTCDate_shift t n]
  have hc : timeClip (t + n * 86400000) = some (t + n * 86400000) := by
    unfold timeClip
    rw [if_pos hr]
  rw [hc]
  exact dateFromNative_timestamp (t + n * 86400000) d.timezone hr hy

/-- `jsLtNum` on two real numbers. -/
theorem jsLtNum_some_some (x y : Int) : jsLtNum (some x) (some y) = decide (x < y) := rfl

/-- `jsLtNum` with NaN on the left. -/
theorem jsLtNum_none_left (y : Option Int) : jsLtNum none y = false := rfl

/-- `jsLtNum` with NaN on the right. -/
theorem jsLtNum_none_right (x : Option Int) : jsLtNum x none = false := by
  cases x <;> rfl

/-- `jsGtNum` on two real numbers. -/
theorem jsGtNum_some_some (x y : Int) : jsGtNum (some x) (some y) = decide (x > y) := rfl

/-- `jsGtNum` with NaN on the left. -/
theorem jsGtNum_none_left (y : Option Int) : jsGtNum none y = false := rfl

/-- `jsGtNum` with NaN on the right. -/
theorem jsGtNum_none_right (x : Option Int) : jsGtNum x none = false := by
  cases x <;> rfl

/-- Propositional form of `isBefore`: true exactly on two real timestamps in
strict order. -/
theorem isBefore_eq_true_iff (a b : ChronoDate) :
    isBefore a b = true ↔
      ∃ x y : Int, a.timestamp = some x ∧ b.timestamp = some y ∧ x < y := by
  unfold isBefore
  cases ha : a.timestamp with
  | none =>
      rw [jsLtNum_none_left]
      simp
  | some x =>
      cases hb : b.timestamp with
      | none =>
          rw [jsLtNum_none_right]
          simp
      | some y =>
          rw [jsLtNum_some_some]
          simp

/-- Propositional form of `isAfter`. -/
theorem isAfter_eq_true_iff (a b : ChronoDate) :
    isAfter a b = true ↔
      ∃ x y : Int, a.timestamp = some x ∧ b.timestamp = some y ∧ x > y := by
  unfold isAfter
  cases ha : a.timestamp with
  | none =>
      rw [jsGtNum_none_left]
      simp
  | some x =>
      cases hb : b.timestamp with
      | none =>
          rw [jsGtNum_none_right]
          simp
      | some y =>
          rw [jsGtNum_some_some]
          simp

/-- The fold inside `min` returns the seed or a member; from a seed with a
real (non-NaN) timestamp the result's timestamp is real, bounds the seed's,
and bounds every member timestamp that is real (a NaN element never
displaces the accumulator, every `isBefore` comparison with NaN being
false). -/
theorem foldl_min_props :
    ∀ (l : List ChronoDate) (acc : ChronoDate),
      (l.foldl (fun earliest current =>
          if isBefore current earliest then current else earliest) acc = acc ∨
        l.foldl (fun earliest current =>
          if isBefore current earliest then current else earliest) acc ∈ l) ∧
      ∀ t : Int, acc.timestamp = some t →
        ∃ tr : Int,
          (l.foldl (fun earliest current =>
              if isBefore current earliest then current else earliest) acc).timestamp
            = some tr ∧ tr ≤ t ∧
          ∀ x ∈ l, ∀ tx : Int, x.timestamp = some tx → tr ≤ tx := by
  intro l
  induction l with
  | nil =>
      intro acc
      refine ⟨Or.inl rfl, ?_⟩
      intro t ht
      exact ⟨t, ht, le_refl t, by intro x hx; cases hx⟩
  | cons d rest ih =>
      intro acc
      simp only [List.foldl_cons]
      obtain ⟨ha, hb⟩ := ih (if isBefore d acc then d else acc)
      have hmem : (if isBefore d acc then d else acc) = acc ∨
          (if isBefore d acc then d else acc) = d := by
        by_cases hd : isBefore d acc = true
        · rw [if_pos hd]
          exact Or.inr rfl
        · rw [if_neg hd]
          exact Or.inl rfl
      refine ⟨?_, ?_⟩
      · rcases ha with ha | ha
        · rw [ha]
          rcases hmem with h | h
          · exact Or.inl h
          · rw [h]
            exact Or.inr (List.mem_cons_self d rest)
        · exact Or.inr (List.mem_cons_of_mem d ha)
      · intro t ht
        have hstep : ∃ t' : Int,
            (if isBefore d acc then d else acc).timestamp = some t' ∧ t' ≤ t ∧
            ∀ tx : Int, d.timestamp = some tx → t' ≤ tx := by
          by_cases hd : isBefore d acc = true
          · obtain ⟨u, v, hu, hv, huv⟩ := (isBefore_eq_true_iff d acc).mp hd
            have hvt : v = t := by
              rw [ht] at hv
              exact (Option.some.inj hv).symm
            rw [if_pos hd]
            refine ⟨u, hu, by omega, ?_⟩
            intro tx htx
            rw [hu] at htx
            have := Option.some.inj htx
            omega
          · rw [if_neg hd]
            refine ⟨t, ht, le_refl t, ?_⟩
            intro tx htx
            by_contra hlt
            exact hd ((isBefore_eq_true_iff d acc).mpr ⟨tx, t, htx, ht, by omega⟩)
        obtain ⟨t', ht', ht'le, hdb⟩ := hstep
        obtain ⟨tr, htr, htrle, hbound⟩ := hb t' ht'
        refine ⟨tr, htr, by omega, ?_⟩
        intro x hx tx htx
        rcases List.mem_cons.mp hx with hx | hx
        · rw [hx] at htx
          exact le_trans htrle (hdb tx htx)
        · exact hbound x hx tx htx

/-- The fold inside `max` returns the seed or a member; from a seed with a
real timestamp the result's timestamp is real, is bounded below by the
seed's, and bounds above every member timestamp that is real. -/
theorem foldl_max_props :
    ∀ (l : List ChronoDate) (acc : ChronoDate),
      (l.foldl (fun latest current =>
          if isAfter current latest then current else latest) acc = acc ∨
        l.foldl (fun latest current =>
          if isAfter current latest then current else latest) acc ∈ l) ∧
      ∀ t : Int, acc.timestamp = some t →
        ∃ tr : Int,
          (l.foldl (fun latest current =>
              if isAfter current latest then current else latest) acc).timestamp
            = some tr ∧ t ≤ tr ∧
          ∀ x ∈ l, ∀ tx : Int, x.timestamp = some tx → tx ≤ tr := by
  intro l
  induction l with
  | nil =>
      intro acc
      refine ⟨Or.inl rfl, ?_⟩
      intro t ht
      exact ⟨t, ht, le_refl t, by intro x hx; cases hx⟩
  | cons d rest ih =>
      intro acc
      simp only [List.foldl_cons]
      obtain ⟨ha, hb⟩ := ih (if isAfter d acc then d else acc)
      have hmem : (if isAfter d acc then d else acc) = acc ∨
          (if isAfter d acc then d else acc) = d := by
        by_cases hd : isAfter d acc = true
        · rw [if_pos hd]
          exact Or.inr rfl
        · rw [if_neg hd]
          exact Or.inl rfl
      refine ⟨?_, ?_⟩
      · rcases ha with ha | ha
        · rw [ha]
          rcases hmem with h | h
          · exact Or.inl h
          · rw [h]
            exact Or.inr (List.mem_cons_self d rest)
        · exact Or.inr (List.mem_cons_of_mem d ha)
      · intro t ht
        have hstep : ∃ t' : Int,
            (if isAfter d acc then d else acc).timestamp = some t' ∧ t ≤ t' ∧
            ∀ tx : Int, d.timestamp = some tx → tx ≤ t' := by
          by_cases hd : isAfter d acc = true
          · obtain ⟨u, v, hu, hv, huv⟩ := (isAfter_eq_true_iff d acc).mp hd
            have hvt : v = t := by
              rw [ht] at hv
              exact (Option.some.inj hv).symm
            rw [if_pos hd]
            refine ⟨u, hu, by omega, ?_⟩
            intro tx htx
            rw [hu] at htx
            have := Option.some.inj htx
            omega
          · rw [if_neg hd]
            refine ⟨t, ht, le_refl t, ?_⟩
            intro tx htx
            by_contra hlt
            exact hd ((isAfter_eq_true_iff d acc).mpr ⟨tx, t, htx, ht, by omega⟩)
        obtain ⟨t', ht', ht'le, hdb⟩ := hstep
        obtain ⟨tr, htr, htrle, hbound⟩ := hb t' ht'
        refine ⟨tr, htr, by omega, ?_⟩
        intro x hx tx htx
        rcases List.mem_cons.mp hx with hx | hx
        · rw [hx] at htx
          exact le_trans (hdb tx htx) htrle
        · exact hbound x hx tx htx

/-- `cacheLookup` on a cons cell. -/
theorem cacheLookup_cons (k v q : String) (c : List (String × String)) :
    cacheLookup ((k, v) :: c) q =
      if (k == q) = true then some v else cacheLookup c q := by
  unfold cacheLookup
  cases hkq : (k == q) <;> simp [List.find?, hkq]

/-- `getDaysInMonth` outside months 1..12 returns 0 (never an error). -/
theorem getDaysInMonth_eq_zero (y m : Int) (h : m < 1 ∨ 12 < m) :
    getDaysInMonth y m = 0 := by
  unfold getDaysInMonth
  have hm2 : (m == 2) = false := beq_eq_false_iff_ne.mpr (by omega)
  rw [hm2]
  simp only [Bool.false_and]
  rw [if_neg (by simp)]
  rcases h with h | h
  · rw [if_pos h]
  · rw [if_neg (by omega)]
    have hidx : daysInMonthTable.length ≤ (m - 1).toNat := by
      simp only [daysInMonthTable, List.length]
      omega
    exact List.getD_eq_default _ _ hidx

/-- `specDaysInMonth` outside months 1..12 is 0. -/
theorem specDaysInMonth_eq_zero (y m : Int) (h : m < 1 ∨ 12 < m) :
    specDaysInMonth y m = 0 := by
  unfold specDaysInMonth
  iterate 12 rw [if_neg (by omega)]

/-! ### Claim theorems -/

/-- C1.  The claim says `addMonths` clamps the day to the target month's
length, with `addMonths(2025-01-31, 1)` landing on February 28.  The code
instead relies on the host `setUTCMonth`, whose day overflow rolls into the
next month: the result is 2025-03-03 (timestamp 1740960000000 =
2025-03-03T00:00:00Z), contradicting both the specification and the source's
own doc comment example (`addMonths(date, 1); // 2025-02-28`), so this is a
bug in the code. -/
theorem C1_addMonths_jan31_overflows :
    (dateFromComponents 2025 1 31 0 0 0 0 "UTC").map (fun d => addMonths d 1) =
      .ok (.ok { year := 2025, month := 3, day := 3, hour := 0, minute := 0,
                 second := 0, millisecond := 0, timestamp := some 1740960000000,
                 timezone := "UTC" }) := by
  decide

/-- C2 (counterexample).  The claim says every constructed value's
`timestamp` equals the UTC linear time of its civil fields.  Two violations:
for year 50 the host `Date.UTC` applies the two-digit-year rule
(`MakeFullYear`), storing the timestamp of 1950-01-01 (-631152000000), not
the proleptic Gregorian time of year 50 (-60589296000000); and for year
300000 the composed time value exceeds the `TimeClip` range, so the
constructor succeeds but stores NaN. -/
theorem C2_counterexample :
    (dateFromComponents 50 1 1 0 0 0 0 "UTC").map ChronoDate.timestamp =
      .ok (some (-631152000000)) ∧
    specUtcTimestamp 50 1 1 0 0 0 0 = -60589296000000 ∧
    (-631152000000 : Int) ≠ -60589296000000 ∧
    (dateFromComponents 300000 1 1 0 0 0 0 "UTC").map ChronoDate.timestamp =
      .ok none := by
  decide

/-- C2 (amended).  For every field tuple accepted by the validated
constructor whose year is not in the ECMAScript two-digit band 0..99 and
whose UTC linear time lies inside the `TimeClip` range ±8.64e15 ms, the
stored `timestamp` equals the UTC linear time computed from the civil fields
under proleptic Gregorian rules (outside the range the stored timestamp is
NaN, and for years 0..99 it is shifted by 1900 years — see the
counterexample). -/
theorem C2_timestamp_matches_spec (y m d h mi s ms : Int) (tz : String)
    (hd : isValidDate y m d = true) (ht : isValidTime h mi s ms = true)
    (hy : y < 0 ∨ 100 ≤ y)
    (hr : -8640000000000000 ≤ specUtcTimestamp y m d h mi s ms ∧
          specUtcTimestamp y m d h mi s ms ≤ 8640000000000000) :
    (dateFromComponents y m d h mi s ms tz).map ChronoDate.timestamp =
      .ok (some (specUtcTimestamp y m d h mi s ms)) := by
  rw [dateFromComponents_ok y m d h mi s ms tz hd ht]
  obtain ⟨hm1, hm2, _, _⟩ := isValidDate_bounds y m d hd
  simp only [Except.map]
  unfold jsDateUTC
  rw [jsDateUTC_spec y m d h mi s ms ⟨hm1, hm2⟩ hy]
  unfold timeClip
  rw [if_pos hr]

/-- C2 (witness): the amended theorem applied at 2025-01-15T10:30:45.123Z. -/
theorem C2_witness :
    (dateFromComponents 2025 1 15 10 30 45 123 "UTC").map ChronoDate.timestamp =
      .ok (some (specUtcTimestamp 2025 1 15 10 30 45 123)) :=
  C2_timestamp_matches_spec 2025 1 15 10 30 45 123 "UTC" (by decide) (by decide)
    (by decide) (by decide)

/-- C4.  The ISO parser rejects well-formed but calendrically invalid dates
with a `ParseError`, enforcing the leap-year rule: 2024-02-29 parses with
day 29, 2023-02-29 fails, and `daysInMonth` gives 29/28/29 for February of
2000/1900/2024. -/
theorem C4_leap_year_boundary :
    parseISO "2024-02-29" =
      .ok { year := 2024, month := 2, day := 29, hour := 0, minute := 0,
            second := 0, millisecond := 0, timestamp := some 1709164800000,
            timezone := "UTC" } ∧
    parseISO "2023-02-29" = .error (.parseError "Invalid date: 2023-2-29") ∧
    getDaysInMonth 2000 2 = 29 ∧ getDaysInMonth 1900 2 = 28 ∧
    getDaysInMonth 2024 2 = 29 := by
  decide

/-- C5 (counterexample).  The claim says `isSame(a, b, 'week')` holds iff `a`
and `b` fall in the same epoch-aligned zero-indexed 7-day bucket.  The
timestamps 604799999 and 604800000 lie in epoch buckets 0 and 1 respectively,
yet `isSame` returns true (their distance is 1 ms): the code uses a sliding
window on the absolute difference, not epoch-aligned bucketing. -/
theorem C5_counterexample :
    dateFromTimestamp 604799999 "UTC" =
      .ok { year := 1970, month := 1, day := 7, hour := 23, minute := 59,
            second := 59, millisecond := 999, timestamp := some 604799999,
            timezone := "UTC" } ∧
    dateFromTimestamp 604800000 "UTC" =
      .ok { year := 1970, month := 1, day := 8, hour := 0, minute := 0,
            second := 0, millisecond := 0, timestamp := some 604800000,
            timezone := "UTC" } ∧
    isSame { year := 1970, month := 1, day := 7, hour := 23, minute := 59,
             second := 59, millisecond := 999, timestamp := some 604799999,
             timezone := "UTC" }
           { year := 1970, month := 1, day := 8, hour := 0, minute := 0,
             second := 0, millisecond := 0, timestamp := some 604800000,
             timezone := "UTC" } .week = true ∧
    specEpochWeekBucket 604799999 ≠ specEpochWeekBucket 604800000 := by
  decide

/-- C5 (amended).  On real (non-NaN) timestamps, `isSame(a, b, 'week')`
returns true exactly when the absolute timestamp difference is strictly
below one week (604800000 ms, `MILLISECONDS_IN_WEEK` of
src/utils/constants.ts) — a sliding-window rule, not epoch-aligned
bucketing. -/
theorem C5_isSame_week_sliding_window (a b : ChronoDate) (x y : Int)
    (ha : a.timestamp = some x) (hb : b.timestamp = some y) :
    isSame a b .week = true ↔ jsAbs (x - y) < 604800000 := by
  have h0 : 0 ≤ jsAbs (x - y) := by
    unfold jsAbs
    split <;> omega
  have hred : isSame a b .week = (jsAbs (x - y) / 604800000 == 0) := by
    simp only [isSame, ha, hb, jsSubNum]
  rw [hred, beq_iff_eq]
  omega

/-- C5 (witness): the amended theorem applied to 1970-01-01T00:00:00.000Z
and 1970-01-07T23:59:59.999Z. -/
theorem C5_witness :
    isSame { year := 1970, month := 1, day := 1, hour := 0, minute := 0,
             second := 0, millisecond := 0, timestamp := some 0,
             timezone := "UTC" }
           { year := 1970, month := 1, day := 7, hour := 23, minute := 59,
             second := 59, millisecond := 999, timestamp := some 604799999,
             timezone := "UTC" } .week = true ↔
      jsAbs (0 - 604799999) < 604800000 :=
  C5_isSame_week_sliding_window
    { year := 1970, month := 1, day := 1, hour := 0, minute := 0,
      second := 0, millisecond := 0, timestamp := some 0, timezone := "UTC" }
    { year := 1970, month := 1, day := 7, hour := 23, minute := 59,
      second := 59, millisecond := 999, timestamp := some 604799999,
      timezone := "UTC" }
    0 604799999 rfl rfl

/-- C6 (counterexample).  The claim says compiling a preset name caches the
compiled result under both the preset-name key and the expanded pattern's
key.  Compiling "ISO" from an empty cache stores only the expanded pattern's
key; the "ISO" key is never inserted, so a subsequent compile of "ISO" probes
the cache and misses. -/
theorem C6_counterexample :
    compileFormatter [] "ISO" =
      some ⟨[("YYYY-MM-DDTHH:mm:ss.SSSZ", "YYYY-MM-DDTHH:mm:ss.SSSZ")],
            "YYYY-MM-DDTHH:mm:ss.SSSZ"⟩ ∧
    cacheLookup [("YYYY-MM-DDTHH:mm:ss.SSSZ", "YYYY-MM-DDTHH:mm:ss.SSSZ")]
      "ISO" = none := by
  decide

/-- C6 (amended).  Compiling a preset name resolves it to its expansion and
compiles that, caching the result under the expanded pattern's key only: the
preset-name key is never inserted (a later compile of the preset name misses
the cache and re-resolves), while a later compile of the expanded pattern is
a cache hit. -/
theorem C6_preset_caches_expansion_only (name exp : String)
    (c : List (String × String))
    (hp : lookupPreset name = some exp) (hpe : lookupPreset exp = none)
    (hn : cacheLookup c name = none) (he : cacheLookup c exp = none) :
    compileFormatter c name = some ⟨(exp, exp) :: c, exp⟩ ∧
    cacheLookup ((exp, exp) :: c) name = none ∧
    cacheLookup ((exp, exp) :: c) exp = some exp := by
  have hneq : exp ≠ name := by
    intro hEq
    rw [hEq, hp] at hpe
    cases hpe
  refine ⟨?_, ?_, ?_⟩
  · simp only [compileFormatter, compileFormatterFuel, hn, hp, he, hpe]
  · rw [cacheLookup_cons]
    rw [if_neg (by simp [hneq])]
    exact hn
  · rw [cacheLookup_cons]
    rw [if_pos (by simp)]

/-- C6 (witness): the amended theorem applied to the "ISO" preset and an
empty cache. -/
theorem C6_witness :
    compileFormatter [] "ISO" =
      some ⟨[("YYYY-MM-DDTHH:mm:ss.SSSZ", "YYYY-MM-DDTHH:mm:ss.SSSZ")],
            "YYYY-MM-DDTHH:mm:ss.SSSZ"⟩ ∧
    cacheLookup [("YYYY-MM-DDTHH:mm:ss.SSSZ", "YYYY-MM-DDTHH:mm:ss.SSSZ")]
      "ISO" = none ∧
    cacheLookup [("YYYY-MM-DDTHH:mm:ss.SSSZ", "YYYY-MM-DDTHH:mm:ss.SSSZ")]
      "YYYY-MM-DDTHH:mm:ss.SSSZ" = some "YYYY-MM-DDTHH:mm:ss.SSSZ" :=
  C6_preset_caches_expansion_only "ISO" "YYYY-MM-DDTHH:mm:ss.SSSZ" []
    (by decide) (by decide) (by decide) (by decide)

/-- C7 (counterexample).  The claim says `daysInMonth` signals `InvalidField`
for a month outside 1..12 rather than returning a number; the code returns
the number 0 there (`daysInMonth[month - 1] || 0`). -/
theorem C7_counterexample :
    getDaysInMonth 2025 13 = 0 ∧ getDaysInMonth 2025 0 = 0 := by
  decide

/-- C7 (amended).  `daysInMonth(year, month)` returns the table value
{31, 28/29, 31, 30, 31, 30, 31, 31, 30, 31, 30, 31} for months 1..12 (29 for
February of a leap year) and returns 0 — it does not signal an error — for
any month outside 1..12. -/
theorem C7_getDaysInMonth_table_or_zero (y m : Int) :
    getDaysInMonth y m = specDaysInMonth y m := by
  by_cases h1 : m < 1
  · rw [getDaysInMonth_eq_zero y m (Or.inl h1), specDaysInMonth_eq_zero y m (Or.inl h1)]
  · by_cases h2 : 12 < m
    · rw [getDaysInMonth_eq_zero y m (Or.inr h2), specDaysInMonth_eq_zero y m (Or.inr h2)]
    · have hb1 : 1 ≤ m := by omega
      have hb2 : m ≤ 12 := by omega
      interval_cases m
      · rfl
      · cases hl : isLeapYear y
        · have hcode : getDaysInMonth y 2 = 28 := by
            simp [getDaysInMonth, hl]
            rfl
          have hspec : specDaysInMonth y 2 = 28 := by
            simp [specDaysInMonth, hl]
          rw [hcode, hspec]
        · have hcode : getDaysInMonth y 2 = 29 := by
            simp [getDaysInMonth, hl]
          have hspec : specDaysInMonth y 2 = 29 := by
            simp [specDaysInMonth, hl]
          rw [hcode, hspec]
      · rfl
      · rfl
      · rfl
      · rfl
      · rfl
      · rfl
      · rfl
      · rfl
      · rfl
      · rfl

/-- C8 (counterexample).  The claim says `isBefore(d, addDays(d, n))` iff
`n > 0`, for every d and n.  Two violations: taking d = 0100-01-01 and
n = -1, the decomposed target date is 0099-12-31, which the validating
constructor feeds back through `Date.UTC`; the two-digit-year rule turns it
into 1999-12-31, so the "one day earlier" result lands 1899 years later and
`isBefore` returns true although n < 0.  And from the maximal representable
date 275760-09-13 (time value 8.64e15), `addDays(d, 1)` does not return a
value at all: `setUTCDate` clips the shifted time value to NaN and the
re-validating constructor throws. -/
theorem C8_counterexample :
    (dateFromComponents 100 1 1 0 0 0 0 "UTC").map
      (fun d => (addDays d (-1)).map (fun v => isBefore d v)) =
      .ok (.ok true) ∧
    decide ((-1 : Int) > 0) = false ∧
    addDays { year := 275760, month := 9, day := 13, hour := 0, minute := 0,
              second := 0, millisecond := 0, timestamp := some 8640000000000000,
              timezone := "UTC" } 1 =
      .error (.chronoError "Invalid date: NaN-NaN-NaN") := by
  decide

/-- C8 (amended).  For every DateTime value d with a real timestamp t and
every integer n such that the shifted time value `t + n * 86400000`
(`MILLISECONDS_IN_DAY` of src/utils/constants.ts) stays inside the
`TimeClip` range and its UTC year is not in the ECMAScript two-digit band
0..99, `addDays(d, n)` succeeds with exactly that timestamp,
`isBefore(d, addDays(d, n))` holds iff n > 0, and
`diff(d, addDays(d, n), 'day') = n`. -/
theorem C8_addDays_consistency (d : ChronoDate) (t n : Int)
    (ht : d.timestamp = some t)
    (hr : -8640000000000000 ≤ t + n * 86400000 ∧
          t + n * 86400000 ≤ 8640000000000000)
    (hy : cfdY (jsDay (t + n * 86400000)) < 0 ∨
          100 ≤ cfdY (jsDay (t + n * 86400000))) :
    (addDays d n).map ChronoDate.timestamp = .ok (some (t + n * 86400000)) ∧
    (addDays d n).map (fun v => isBefore d v) = .ok (decide (n > 0)) ∧
    (addDays d n).map (fun v => diff d v .day) = .ok (some n) := by
  rw [addDays_ok d t n ht hr hy]
  refine ⟨rfl, ?_, ?_⟩
  · simp only [Except.map, isBefore]
    rw [ht]
    have hlt : jsLtNum (some t) (some (t + n * 86400000)) =
        decide (t < t + n * 86400000) := rfl
    rw [hlt]
    have hiff : (t < t + n * 86400000) ↔ (n > 0) := by omega
    rw [decide_eq_decide.mpr hiff]
  · simp only [Except.map, diff]
    rw [ht]
    have hsub : jsSubNum (some (t + n * 86400000)) (some t) =
        some (t + n * 86400000 - t) := rfl
    rw [hsub]
    have : (t + n * 86400000 - t) / 86400000 = n := by omega
    simp only [Option.map, this]

/-- C8 (witness): the amended theorem applied at 2025-01-15T00:00:00Z with
n = 5. -/
theorem C8_witness :
    (addDays { year := 2025, month := 1, day := 15, hour := 0, minute := 0,
               second := 0, millisecond := 0, timestamp := some 1736899200000,
               timezone := "UTC" } 5).map ChronoDate.timestamp =
      .ok (some (1736899200000 + 5 * 86400000)) ∧
    (addDays { year := 2025, month := 1, day := 15, hour := 0, minute := 0,
               second := 0, millisecond := 0, timestamp := some 1736899200000,
               timezone := "UTC" } 5).map
        (fun v => isBefore { year := 2025, month := 1, day := 15, hour := 0,
                             minute := 0, second := 0, millisecond := 0,
                             timestamp := some 1736899200000,
                             timezone := "UTC" } v) =
      .ok (decide ((5 : Int) > 0)) ∧
    (addDays { year := 2025, month := 1, day := 15, hour := 0, minute := 0,
               second := 0, millisecond := 0, timestamp := some 1736899200000,
               timezone := "UTC" } 5).map
        (fun v => diff { year := 2025, month := 1, day := 15, hour := 0,
                         minute := 0, second := 0, millisecond := 0,
                         timestamp := some 1736899200000,
                         timezone := "UTC" } v .day) =
      .ok (some 5) :=
  C8_addDays_consistency
    { year := 2025, month := 1, day := 15, hour := 0, minute := 0, second := 0,
      millisecond := 0, timestamp := some 1736899200000, timezone := "UTC" }
    1736899200000 5 rfl (by decide) (by decide)

/-- C9.  `min`/`max` over one or more values fold by `isBefore`/`isAfter`
and return the first argument or a member of the argument list; whenever the
first argument's timestamp is real (non-NaN), the result's timestamp is real
and is a lower/upper bound of the first argument's timestamp and of every
real member timestamp.  Called with zero arguments they fail with the
explicit empty-input error. -/
theorem C9_min_max_fold :
    (chronoMin [] = .error (.emptyInput "Cannot find minimum of empty array") ∧
     chronoMax [] = .error (.emptyInput "Cannot find maximum of empty array")) ∧
    ∀ (d : ChronoDate) (l : List ChronoDate),
      (∃ v, chronoMin (d :: l) = .ok v ∧ (v = d ∨ v ∈ l) ∧
        ∀ td : Int, d.timestamp = some td →
          ∃ tv : Int, v.timestamp = some tv ∧ tv ≤ td ∧
            ∀ x ∈ l, ∀ tx : Int, x.timestamp = some tx → tv ≤ tx) ∧
      (∃ w, chronoMax (d :: l) = .ok w ∧ (w = d ∨ w ∈ l) ∧
        ∀ td : Int, d.timestamp = some td →
          ∃ tw : Int, w.timestamp = some tw ∧ td ≤ tw ∧
            ∀ x ∈ l, ∀ tx : Int, x.timestamp = some tx → tx ≤ tw) := by
  refine ⟨⟨rfl, rfl⟩, ?_⟩
  intro d l
  constructor
  · obtain ⟨ha, hb⟩ := foldl_min_props l d
    exact ⟨_, rfl, ha, hb⟩
  · obtain ⟨ha, hb⟩ := foldl_max_props l d
    exact ⟨_, rfl, ha, hb⟩

/-- C9 (witness): the fold part applied to a concrete two-element list. -/
theorem C9_witness :
    ∃ v : ChronoDate, chronoMin
        [{ year := 2025, month := 1, day := 20, hour := 0, minute := 0,
           second := 0, millisecond := 0, timestamp := some 1737331200000,
           timezone := "UTC" },
         { year := 2025, month := 1, day := 15, hour := 0, minute := 0,
           second := 0, millisecond := 0, timestamp := some 1736899200000,
           timezone := "UTC" }] = .ok v ∧
      (v = { year := 2025, month := 1, day := 20, hour := 0, minute := 0,
             second := 0, millisecond := 0, timestamp := some 1737331200000,
             timezone := "UTC" } ∨
        v ∈ [{ year := 2025, month := 1, day := 15, hour := 0, minute := 0,
               second := 0, millisecond := 0, timestamp := some 1736899200000,
               timezone := "UTC" }]) ∧
      ∀ td : Int, some 1737331200000 = some td →
        ∃ tv : Int, v.timestamp = some tv ∧ tv ≤ td ∧
          ∀ x : ChronoDate,
            x ∈ ([{ year := 2025, month := 1, day := 15, hour := 0, minute := 0,
                    second := 0, millisecond := 0,
                    timestamp := some 1736899200000,
                    timezone := "UTC" }] : List ChronoDate) →
            ∀ tx : Int, x.timestamp = some tx → tv ≤ tx :=
  (C9_min_max_fold.2
    { year := 2025, month := 1, day := 20, hour := 0, minute := 0, second := 0,
      millisecond := 0, timestamp := some 1737331200000, timezone := "UTC" }
    [{ year := 2025, month := 1, day := 15, hour := 0, minute := 0, second := 0,
       millisecond := 0, timestamp := some 1736899200000,
       timezone := "UTC" }]).1

/-- C10.  The ISO parser accepts a date followed by a trailing 'T' with an
empty time section: `'2025-01-15T'.split('T')` yields a second, empty part,
and `parts[1] || '00:00:00'` silently substitutes the default time, so the
result equals parsing the bare date, with time 00:00:00.000 and zone label
"UTC". -/
theorem C10_trailing_T_accepted :
    parseISO "2025-01-15T" = parseISO "2025-01-15" ∧
    parseISO "2025-01-15T" =
      .ok { year := 2025, month := 1, day := 15, hour := 0, minute := 0,
            second := 0, millisecond := 0, timestamp := some 1736899200000,
            timezone := "UTC" } := by
  decide

/-! ### Decimal text round-trip -/

/-- The digit characters are digits. -/
theorem digitChar_isDigit : ∀ d : Nat, d < 10 → (Nat.digitChar d).isDigit = true := by
  decide

/-- Code-point value of a digit character. -/
theorem digitChar_toNat : ∀ d : Nat, d < 10 → (Nat.digitChar d).toNat = 48 + d := by
  decide

/-- The fuelled digit printer of `Nat.repr` agrees with `natRepChars`. -/
theorem toDigitsCore_eq_natRepChars :
    ∀ (f n : Nat) (acc : List Char), n < f →
      Nat.toDigitsCore 10 f n acc = natRepChars n ++ acc := by
  intro f
  induction f with
  | zero =>
      intro n acc h
      cases h
  | succ f ih =>
      intro n acc h
      unfold Nat.toDigitsCore
      by_cases h10 : n / 10 = 0
      · have hn10 : n < 10 := by omega
        rw [if_pos h10]
        unfold natRepChars
        rw [dif_pos hn10]
        have : n % 10 = n := by omega
        rw [this]
        rfl
      · rw [if_neg h10]
        have hdiv : n / 10 < f := by omega
        rw [ih (n / 10) (Nat.digitChar (n % 10) :: acc) hdiv]
        have hrep : natRepChars n = natRepChars (n / 10) ++ [Nat.digitChar (n % 10)] := by
          conv_lhs => rw [natRepChars]
          rw [dif_neg (by omega)]
        rw [hrep]
        simp

/-- `natRepChars` yields only digit characters. -/
theorem natRepChars_all_digits (n : Nat) :
    (natRepChars n).all Char.isDigit = true := by
  induction n using Nat.strong_induction_on with
  | _ n ih =>
    unfold natRepChars
    by_cases h : n < 10
    · rw [dif_pos h]
      simp [List.all, digitChar_isDigit n h]
    · rw [dif_neg h]
      rw [List.all_append]
      simp only [Bool.and_eq_true]
      constructor
      · exact ih (n / 10) (by omega)
      · simp [List.all, digitChar_isDigit (n % 10) (by omega)]

/-- `natRepChars` is never empty. -/
theorem natRepChars_ne_nil (n : Nat) : natRepChars n ≠ [] := by
  unfold natRepChars
  by_cases h : n < 10
  · rw [dif_pos h]
    simp
  · rw [dif_neg h]
    simp

/-- Folding the decimal-accumulation step over `natRepChars n` from any
start value. -/
theorem natRepChars_foldl (n : Nat) :
    ∀ i : Int,
      List.foldl (fun acc c => 10 * acc + ((c.toNat : Int) - 48)) i (natRepChars n) =
        i * 10 ^ (natRepChars n).length + n := by
  induction n using Nat.strong_induction_on with
  | _ n ih =>
    intro i
    unfold natRepChars
    by_cases h : n < 10
    · rw [dif_pos h]
      have hv : (Nat.digitChar n).toNat = 48 + n := digitChar_toNat n h
      simp [List.foldl, hv]
      ring
    · rw [dif_neg h]
      rw [List.foldl_append]
      rw [ih (n / 10) (by omega) i]
      have hv : (Nat.digitChar (n % 10)).toNat = 48 + n % 10 :=
        digitChar_toNat (n % 10) (by omega)
      simp [List.foldl, hv, List.length_append]
      have hsplit : (n : Int) = 10 * ((n : Nat) / 10 : Nat) + ((n : Nat) % 10 : Nat) := by
        omega
      ring_nf
      omega

/-- Digit-count bound for `natRepChars`. -/
theorem natRepChars_length_le :
    ∀ (e n : Nat), 0 < e → n < 10 ^ e → (natRepChars n).length ≤ e := by
  intro e
  induction e with
  | zero =>
      intro n h
      cases h
  | succ e ih =>
      intro n _ hn
      unfold natRepChars
      by_cases h : n < 10
      · rw [dif_pos h]
        simp
      · rw [dif_neg h]
        simp only [List.length_append, List.length_cons, List.length_nil]
        have he : 0 < e := by
          by_contra hz
          have : e = 0 := by omega
          rw [this] at hn
          simp at hn
          omega
        have hdiv : n / 10 < 10 ^ e := by
          have : 10 ^ (e + 1) = 10 ^ e * 10 := by ring
          omega
        have := ih (n / 10) he hdiv
        omega

/-- The printed form of a cast natural number, at the character level. -/
theorem toString_intOfNat_data (n : Nat) :
    (toString ((n : Nat) : Int)).data = natRepChars n := by
  show (Int.repr (Int.ofNat n)).data = natRepChars n
  show (Nat.repr n).data = natRepChars n
  unfold Nat.repr Nat.toDigits
  rw [toDigitsCore_eq_natRepChars (n + 1) n [] (by omega)]
  simp [List.asString]

/-- Leading zeros do not change the accumulated value. -/
theorem foldl_zero_chars (k : Nat) :
    List.foldl (fun acc c => 10 * acc + ((c.toNat : Int) - 48)) 0
      (List.replicate k '0') = 0 := by
  induction k with
  | zero => rfl
  | succ k ih =>
      rw [List.replicate_succ]
      simp only [List.foldl_cons]
      have : (10 : Int) * 0 + (('0'.toNat : Int) - 48) = 0 := by decide
      rw [this]
      exact ih

/-- Everything needed about `padZero` applied to an in-range natural
number. -/
theorem padZero_data (n len : Nat) (hlen : 0 < len) (hub : n < 10 ^ len) :
    (padZero ((n : Nat) : Int) len).data.length = len ∧
    (padZero ((n : Nat) : Int) len).data.all Char.isDigit = true ∧
    digitsToInt (padZero ((n : Nat) : Int) len).data = ((n : Nat) : Int) := by
  have hdata : (toString ((n : Nat) : Int)).data = natRepChars n :=
    toString_intOfNat_data n
  have hlenS : (toString ((n : Nat) : Int)).length = (natRepChars n).length := by
    show (toString ((n : Nat) : Int)).data.length = _
    rw [hdata]
  have hle : (natRepChars n).length ≤ len := natRepChars_length_le len n hlen hub
  simp only [padZero]
  by_cases hlt : (toString ((n : Nat) : Int)).length < len
  · rw [if_pos hlt]
    rw [String.data_append]
    have hmk : (String.mk (List.replicate (len - (toString ((n : Nat) : Int)).length)
        '0')).data = List.replicate (len - (toString ((n : Nat) : Int)).length) '0' := rfl
    rw [hmk, hdata, hlenS]
    refine ⟨?_, ?_, ?_⟩
    · simp only [List.length_append, List.length_replicate]
      omega
    · rw [List.all_append]
      simp only [Bool.and_eq_true]
      exact ⟨by simp [List.all_replicate], natRepChars_all_digits n⟩
    · unfold digitsToInt
      rw [List.foldl_append, foldl_zero_chars, natRepChars_foldl n 0]
      simp
  · rw [if_neg hlt]
    rw [hdata]
    refine ⟨by omega, natRepChars_all_digits n, ?_⟩
    unfold digitsToInt
    rw [natRepChars_foldl n 0]
    simp

/-- A list of length two is a two-element literal. -/
theorem list_shape2 {α : Type} (l : List α) (h : l.length = 2) :
    ∃ a b, l = [a, b] := by
  rcases l with _ | ⟨a, _ | ⟨b, _ | ⟨c, t⟩⟩⟩ <;> simp at h
  exact ⟨a, b, rfl⟩

/-- A list of length three is a three-element literal. -/
theorem list_shape3 {α : Type} (l : List α) (h : l.length = 3) :
    ∃ a b c, l = [a, b, c] := by
  rcases l with _ | ⟨a, _ | ⟨b, _ | ⟨c, _ | ⟨e, t⟩⟩⟩⟩ <;> simp at h
  exact ⟨a, b, c, rfl⟩

/-- A list of length four is a four-element literal. -/
theorem list_shape4 {α : Type} (l : List α) (h : l.length = 4) :
    ∃ a b c e, l = [a, b, c, e] := by
  rcases l with _ | ⟨a, _ | ⟨b, _ | ⟨c, _ | ⟨e, _ | ⟨f, t⟩⟩⟩⟩⟩ <;> simp at h
  exact ⟨a, b, c, e, rfl⟩

/-- Shape of a two-digit zero-padded field. -/
theorem pad2_shape (x : Int) (h0 : 0 ≤ x) (h1 : x ≤ 99) :
    ∃ a b : Char, (padZero x 2).data = [a, b] ∧ a.isDigit = true ∧
      b.isDigit = true ∧ digitsToInt [a, b] = x := by
  have hx : x = ((x.toNat : Nat) : Int) := by omega
  obtain ⟨hl, ha, hv⟩ := padZero_data x.toNat 2 (by omega) (by omega)
  rw [← hx] at hl ha hv
  obtain ⟨a, b, hab⟩ := list_shape2 (padZero x 2).data hl
  rw [hab] at ha hv
  simp only [List.all_cons, List.all_nil, Bool.and_eq_true, Bool.and_true] at ha
  exact ⟨a, b, hab, ha.1, ha.2, hv⟩

/-- Shape of a three-digit zero-padded field. -/
theorem pad3_shape (x : Int) (h0 : 0 ≤ x) (h1 : x ≤ 999) :
    ∃ a b c : Char, (padZero x 3).data = [a, b, c] ∧ a.isDigit = true ∧
      b.isDigit = true ∧ c.isDigit = true ∧ digitsToInt [a, b, c] = x := by
  have hx : x = ((x.toNat : Nat) : Int) := by omega
  obtain ⟨hl, ha, hv⟩ := padZero_data x.toNat 3 (by omega) (by omega)
  rw [← hx] at hl ha hv
  obtain ⟨a, b, c, hab⟩ := list_shape3 (padZero x 3).data hl
  rw [hab] at ha hv
  simp only [List.all_cons, List.all_nil, Bool.and_eq_true, Bool.and_true] at ha
  exact ⟨a, b, c, hab, ha.1, ha.2.1, ha.2.2, hv⟩

/-- Shape of a four-digit zero-padded field. -/
theorem pad4_shape (x : Int) (h0 : 0 ≤ x) (h1 : x ≤ 9999) :
    ∃ a b c e : Char, (padZero x 4).data = [a, b, c, e] ∧ a.isDigit = true ∧
      b.isDigit = true ∧ c.isDigit = true ∧ e.isDigit = true ∧
      digitsToInt [a, b, c, e] = x := by
  have hx : x = ((x.toNat : Nat) : Int) := by omega
  obtain ⟨hl, ha, hv⟩ := padZero_data x.toNat 4 (by omega) (by omega)
  rw [← hx] at hl ha hv
  obtain ⟨a, b, c, e, hab⟩ := list_shape4 (padZero x 4).data hl
  rw [hab] at ha hv
  simp only [List.all_cons, List.all_nil, Bool.and_eq_true, Bool.and_true] at ha
  exact ⟨a, b, c, e, hab, ha.1, ha.2.1, ha.2.2.1, ha.2.2.2, hv⟩

/-! ### Splitting lemmas for the parser -/

/-- Splitting on a character absent from the list yields a single segment. -/
theorem splitOnChar_not_mem (sep : Char) (l : List Char) (h : sep ∉ l) :
    splitOnChar sep l = [l] := by
  induction l with
  | nil => rfl
  | cons c rest ih =>
      have hcs : c ≠ sep := fun hEq => h (hEq ▸ List.mem_cons_self c rest)
      unfold splitOnChar
      rw [if_neg hcs, ih (fun hm => h (List.mem_cons_of_mem c hm))]

/-- Splitting at the first occurrence of the separator. -/
theorem splitOnChar_append_sep (sep : Char) (a b : List Char) (ha : sep ∉ a) :
    splitOnChar sep (a ++ sep :: b) = a :: splitOnChar sep b := by
  induction a with
  | nil =>
      simp only [List.nil_append]
      conv_lhs => rw [splitOnChar]
      rw [if_pos rfl]
  | cons c a2 ih =>
      have hcs : c ≠ sep := fun hEq => ha (hEq ▸ List.mem_cons_self c a2)
      simp only [List.cons_append]
      conv_lhs => rw [splitOnChar]
      rw [if_neg hcs, ih (fun hm => ha (List.mem_cons_of_mem c hm))]

/-- A digit character is not the letter 'T'. -/
theorem T_ne_of_digit (c : Char) (h : c.isDigit = true) : 'T' ≠ c := by
  intro hEq
  rw [← hEq] at h
  exact absurd h (by decide)

/-! ### Evaluation of the parser's matchers on shaped input -/

/-- The date matcher on four-digit year, two-digit month, two-digit day. -/
theorem matchDateChars_eval (y1 y2 y3 y4 m1 m2 d1 d2 : Char)
    (h1 : y1.isDigit = true) (h2 : y2.isDigit = true) (h3 : y3.isDigit = true)
    (h4 : y4.isDigit = true) (h5 : m1.isDigit = true) (h6 : m2.isDigit = true)
    (h7 : d1.isDigit = true) (h8 : d2.isDigit = true) :
    matchDateChars [y1, y2, y3, y4, '-', m1, m2, '-', d1, d2] =
      some (digitsToInt [y1, y2, y3, y4], digitsToInt [m1, m2],
            digitsToInt [d1, d2]) := by
  simp [matchDateChars, h1, h2, h3, h4, h5, h6, h7, h8]

/-- The time matcher on a time without fractional seconds. -/
theorem matchTimeChars_eval8 (a1 a2 b1 b2 c1 c2 : Char)
    (h1 : a1.isDigit = true) (h2 : a2.isDigit = true) (h3 : b1.isDigit = true)
    (h4 : b2.isDigit = true) (h5 : c1.isDigit = true) (h6 : c2.isDigit = true) :
    matchTimeChars [a1, a2, ':', b1, b2, ':', c1, c2] =
      some (digitsToInt [a1, a2], digitsToInt [b1, b2], digitsToInt [c1, c2], 0) := by
  simp [matchTimeChars, h1, h2, h3, h4, h5, h6]

/-- The time matcher on a time with three fractional digits. -/
theorem matchTimeChars_eval12 (a1 a2 b1 b2 c1 c2 g1 g2 g3 : Char)
    (h1 : a1.isDigit = true) (h2 : a2.isDigit = true) (h3 : b1.isDigit = true)
    (h4 : b2.isDigit = true) (h5 : c1.isDigit = true) (h6 : c2.isDigit = true)
    (h7 : g1.isDigit = true) (h8 : g2.isDigit = true) (h9 : g3.isDigit = true) :
    matchTimeChars [a1, a2, ':', b1, b2, ':', c1, c2, '.', g1, g2, g3] =
      some (digitsToInt [a1, a2], digitsToInt [b1, b2], digitsToInt [c1, c2],
            digitsToInt [g1, g2, g3]) := by
  simp [matchTimeChars, h1, h2, h3, h4, h5, h6, h7, h8, h9]

/-- One pass of `parseISOChars` over an input assembled from a date section,
the 'T' separator and a time section ending in 'Z'. -/
theorem parseISOChars_structured (dc tc : List Char) (y m d h mi s ms : Int)
    (hTd : 'T' ∉ dc) (hTt : 'T' ∉ tc) (htc : tc ≠ [])
    (hmdc : matchDateChars dc = some (y, m, d))
    (hvd : isValidDate y m d = true)
    (hz : tc.getLast? = some 'Z')
    (hmt : matchTimeChars tc.dropLast = some (h, mi, s, ms))
    (hvt : isValidTime h mi s ms = true) :
    parseISOChars (dc ++ 'T' :: tc) = dateFromComponents y m d h mi s ms "UTC" := by
  have hsplit : splitOnChar 'T' (dc ++ 'T' :: tc) = [dc, tc] := by
    rw [splitOnChar_append_sep 'T' dc tc hTd, splitOnChar_not_mem 'T' tc hTt]
  have hne : (dc ++ 'T' :: tc).isEmpty = false := by
    cases dc <;> rfl
  have htcE : tc.isEmpty = false := by
    cases tc
    · exact absurd rfl htc
    · rfl
  simp only [parseISOChars, hne, hsplit, htcE, hmdc, hvd, hz, hmt, hvt]
  simp [hmdc, hvd, hz, hmt, hvt]

/-- Upper bound of the month-length table over valid months. -/
theorem getDaysInMonth_le_31 (y m : Int) (h1 : 1 ≤ m) (h2 : m ≤ 12) :
    getDaysInMonth y m ≤ 31 := by
  interval_cases m
  · have ht : getDaysInMonth y 1 = 31 := rfl
    omega
  · cases hl : isLeapYear y
    · have ht : getDaysInMonth y 2 = 28 := by
        simp [getDaysInMonth, hl]
        rfl
      omega
    · have ht : getDaysInMonth y 2 = 29 := by
        simp [getDaysInMonth, hl]
      omega
  · have ht : getDaysInMonth y 3 = 31 := rfl
    omega
  · have ht : getDaysInMonth y 4 = 30 := rfl
    omega
  · have ht : getDaysInMonth y 5 = 31 := rfl
    omega
  · have ht : getDaysInMonth y 6 = 30 := rfl
    omega
  · have ht : getDaysInMonth y 7 = 31 := rfl
    omega
  · have ht : getDaysInMonth y 8 = 31 := rfl
    omega
  · have ht : getDaysInMonth y 9 = 30 := rfl
    omega
  · have ht : getDaysInMonth y 10 = 31 := rfl
    omega
  · have ht : getDaysInMonth y 11 = 30 := rfl
    omega
  · have ht : getDaysInMonth y 12 = 31 := rfl
    omega

/-- 'T' does not occur in a rendered date section. -/
theorem T_not_mem_date (c1 c2 c3 c4 e1 e2 f1 f2 : Char)
    (h1 : c1.isDigit = true) (h2 : c2.isDigit = true) (h3 : c3.isDigit = true)
    (h4 : c4.isDigit = true) (h5 : e1.isDigit = true) (h6 : e2.isDigit = true)
    (h7 : f1.isDigit = true) (h8 : f2.isDigit = true) :
    'T' ∉ [c1, c2, c3, c4, '-', e1, e2, '-', f1, f2] := by
  intro hmem
  simp only [List.mem_cons, List.not_mem_nil, or_false] at hmem
  rcases hmem with hh|hh|hh|hh|hh|hh|hh|hh|hh|hh
  · exact T_ne_of_digit c1 h1 hh
  · exact T_ne_of_digit c2 h2 hh
  · exact T_ne_of_digit c3 h3 hh
  · exact T_ne_of_digit c4 h4 hh
  · exact absurd hh (by decide)
  · exact T_ne_of_digit e1 h5 hh
  · exact T_ne_of_digit e2 h6 hh
  · exact absurd hh (by decide)
  · exact T_ne_of_digit f1 h7 hh
  · exact T_ne_of_digit f2 h8 hh

/-- 'T' does not occur in a rendered time section without milliseconds. -/
theorem T_not_mem_time8 (a1 a2 b1 b2 q1 q2 : Char)
    (h1 : a1.isDigit = true) (h2 : a2.isDigit = true) (h3 : b1.isDigit = true)
    (h4 : b2.isDigit = true) (h5 : q1.isDigit = true) (h6 : q2.isDigit = true) :
    'T' ∉ [a1, a2, ':', b1, b2, ':', q1, q2, 'Z'] := by
  intro hmem
  simp only [List.mem_cons, List.not_mem_nil, or_false] at hmem
  rcases hmem with hh|hh|hh|hh|hh|hh|hh|hh|hh
  · exact T_ne_of_digit a1 h1 hh
  · exact T_ne_of_digit a2 h2 hh
  · exact absurd hh (by decide)
  · exact T_ne_of_digit b1 h3 hh
  · exact T_ne_of_digit b2 h4 hh
  · exact absurd hh (by decide)
  · exact T_ne_of_digit q1 h5 hh
  · exact T_ne_of_digit q2 h6 hh
  · exact absurd hh (by decide)

/-- 'T' does not occur in a rendered time section with milliseconds. -/
theorem T_not_mem_time12 (a1 a2 b1 b2 q1 q2 g1 g2 g3 : Char)
    (h1 : a1.isDigit = true) (h2 : a2.isDigit = true) (h3 : b1.isDigit = true)
    (h4 : b2.isDigit = true) (h5 : q1.isDigit = true) (h6 : q2.isDigit = true)
    (h7 : g1.isDigit = true) (h8 : g2.isDigit = true) (h9 : g3.isDigit = true) :
    'T' ∉ [a1, a2, ':', b1, b2, ':', q1, q2, '.', g1, g2, g3, 'Z'] := by
  intro hmem
  simp only [List.mem_cons, List.not_mem_nil, or_false] at hmem
  rcases hmem with hh|hh|hh|hh|hh|hh|hh|hh|hh|hh|hh|hh|hh
  · exact T_ne_of_digit a1 h1 hh
  · exact T_ne_of_digit a2 h2 hh
  · exact absurd hh (by decide)
  · exact T_ne_of_digit b1 h3 hh
  · exact T_ne_of_digit b2 h4 hh
  · exact absurd hh (by decide)
  · exact T_ne_of_digit q1 h5 hh
  · exact T_ne_of_digit q2 h6 hh
  · exact absurd hh (by decide)
  · exact T_ne_of_digit g1 h7 hh
  · exact T_ne_of_digit g2 h8 hh
  · exact T_ne_of_digit g3 h9 hh
  · exact absurd hh (by decide)

/-- C3 (amended).  Text round-trip: for every valid civil-field tuple whose
year lies in 0..9999 (four decimal digits, the only years the fixed
`\d{4}` date grammar can re-read), rendering the constructed value with
`toISOString` and re-parsing it with the ISO parser reproduces the value
exactly — same civil fields and same timestamp.  Timestamp round-trip: for
every timestamp in the representable (`TimeClip`) range ±8.64e15 ms whose
UTC year is not in the ECMAScript two-digit band 0..99, constructing from
the timestamp and re-deriving a timestamp from the resulting civil fields
reproduces it exactly; outside the representable range `fromTimestamp`
does not round-trip but throws (`new Date(ts)` clips to NaN and the
NaN fields fail validation). -/
theorem C3_round_trip :
    (∀ (y m d h mi s ms : Int) (v : ChronoDate),
        isValidDate y m d = true → isValidTime h mi s ms = true →
        0 ≤ y → y ≤ 9999 →
        dateFromComponents y m d h mi s ms "UTC" = .ok v →
        parseISO (toISOString v) = .ok v) ∧
    (∀ ts : Int,
        -8640000000000000 ≤ ts ∧ ts ≤ 8640000000000000 →
        cfdY (jsDay ts) < 0 ∨ 100 ≤ cfdY (jsDay ts) →
        (dateFromTimestamp ts "UTC").map ChronoDate.timestamp = .ok (some ts)) ∧
    (∀ ts : Int, ts < -8640000000000000 ∨ 8640000000000000 < ts →
        dateFromTimestamp ts "UTC" =
          .error (.chronoError "Invalid date: NaN-NaN-NaN")) := by
  refine ⟨?_, ?_, ?_⟩
  · intro y m d h mi s ms v hvd hvt hy0 hy1 hok
    have hrec := dateFromComponents_ok y m d h mi s ms "UTC" hvd hvt
    have hv := Except.ok.inj (hrec.symm.trans hok)
    have hY : v.year = y := by rw [← hv]
    have hM : v.month = m := by rw [← hv]
    have hD : v.day = d := by rw [← hv]
    have hH : v.hour = h := by rw [← hv]
    have hMI : v.minute = mi := by rw [← hv]
    have hS : v.second = s := by rw [← hv]
    have hMS : v.millisecond = ms := by rw [← hv]
    obtain ⟨hm1, hm2, hd1, hd2⟩ := isValidDate_bounds y m d hvd
    have hdm : getDaysInMonth y m ≤ 31 := getDaysInMonth_le_31 y m hm1 hm2
    obtain ⟨hh0, hh1, hmi0, hmi1, hs0, hs1, hms0, hms1⟩ :=
      isValidTime_bounds h mi s ms hvt
    obtain ⟨c1, c2, c3, c4, hcE, hc1, hc2, hc3, hc4, hcV⟩ := pad4_shape y hy0 hy1
    obtain ⟨e1, e2, heE, he1, he2, heV⟩ := pad2_shape m (by omega) (by omega)
    obtain ⟨f1, f2, hfE, hf1, hf2, hfV⟩ := pad2_shape d (by omega) (by omega)
    obtain ⟨a1, a2, haE, ha1, ha2, haV⟩ := pad2_shape h (by omega) (by omega)
    obtain ⟨b1, b2, hbE, hb1, hb2, hbV⟩ := pad2_shape mi (by omega) (by omega)
    obtain ⟨q1, q2, hqE, hq1, hq2, hqV⟩ := pad2_shape s (by omega) (by omega)
    show parseISOChars (toISOString v).data = _
    have hdash : ("-" : String).data = ['-'] := rfl
    have hcolon : (":" : String).data = [':'] := rfl
    have hTs : ("T" : String).data = ['T'] := rfl
    have hZs : ("Z" : String).data = ['Z'] := rfl
    have hdot : ("." : String).data = ['.'] := rfl
    have hemp : ("" : String).data = [] := rfl
    by_cases hpos : ms > 0
    · obtain ⟨g1, g2, g3, hgE, hg1, hg2, hg3, hgV⟩ :=
        pad3_shape ms (by omega) (by omega)
      have hdata : (toISOString v).data =
          [c1, c2, c3, c4, '-', e1, e2, '-', f1, f2] ++ 'T' ::
            [a1, a2, ':', b1, b2, ':', q1, q2, '.', g1, g2, g3, 'Z'] := by
        simp [toISOString, String.data_append, hY, hM, hD, hH, hMI, hS, hMS,
          hcE, heE, hfE, haE, hbE, hqE, hgE, hpos, hdash, hcolon, hTs, hZs,
          hdot]
      rw [hdata]
      rw [parseISOChars_structured _ _ y m d h mi s ms
        (T_not_mem_date c1 c2 c3 c4 e1 e2 f1 f2 hc1 hc2 hc3 hc4 he1 he2 hf1 hf2)
        (T_not_mem_time12 a1 a2 b1 b2 q1 q2 g1 g2 g3 ha1 ha2 hb1 hb2 hq1 hq2
          hg1 hg2 hg3)
        (by simp)
        (by rw [matchDateChars_eval c1 c2 c3 c4 e1 e2 f1 f2 hc1 hc2 hc3 hc4
              he1 he2 hf1 hf2, hcV, heV, hfV])
        hvd
        rfl
        (by rw [show ([a1, a2, ':', b1, b2, ':', q1, q2, '.', g1, g2, g3,
              'Z'] : List Char).dropLast =
              [a1, a2, ':', b1, b2, ':', q1, q2, '.', g1, g2, g3] from rfl,
            matchTimeChars_eval12 a1 a2 b1 b2 q1 q2 g1 g2 g3 ha1 ha2 hb1 hb2
              hq1 hq2 hg1 hg2 hg3, haV, hbV, hqV, hgV])
        hvt]
      exact hok
    · have hms_zero : ms = 0 := by omega
      have hdata : (toISOString v).data =
          [c1, c2, c3, c4, '-', e1, e2, '-', f1, f2] ++ 'T' ::
            [a1, a2, ':', b1, b2, ':', q1, q2, 'Z'] := by
        simp [toISOString, String.data_append, hY, hM, hD, hH, hMI, hS, hMS,
          hcE, heE, hfE, haE, hbE, hqE, hpos, hdash, hcolon, hTs, hZs, hemp]
      rw [hdata]
      rw [parseISOChars_structured _ _ y m d h mi s ms
        (T_not_mem_date c1 c2 c3 c4 e1 e2 f1 f2 hc1 hc2 hc3 hc4 he1 he2 hf1 hf2)
        (T_not_mem_time8 a1 a2 b1 b2 q1 q2 ha1 ha2 hb1 hb2 hq1 hq2)
        (by simp)
        (by rw [matchDateChars_eval c1 c2 c3 c4 e1 e2 f1 f2 hc1 hc2 hc3 hc4
              he1 he2 hf1 hf2, hcV, heV, hfV])
        hvd
        rfl
        (by rw [show ([a1, a2, ':', b1, b2, ':', q1, q2, 'Z'] :
              List Char).dropLast = [a1, a2, ':', b1, b2, ':', q1, q2] from rfl,
            matchTimeChars_eval8 a1 a2 b1 b2 q1 q2 ha1 ha2 hb1 hb2 hq1 hq2,
            haV, hbV, hqV, hms_zero])
        hvt]
      exact hok
  · intro ts hr hy
    have hclip : timeClip ts = some ts := by
      unfold timeClip
      rw [if_pos hr]
    show (dateFromNative (timeClip ts) "UTC").map ChronoDate.timestamp =
      .ok (some ts)
    rw [hclip, dateFromNative_timestamp ts "UTC" hr hy]
    rfl
  · intro ts hout
    have hclip : timeClip ts = none := by
      unfold timeClip
      rw [if_neg (by omega)]
    show dateFromNative (timeClip ts) "UTC" = _
    rw [hclip, dateFromNative_none]

/-- C3 (counterexample).  The claim quantifies over every valid civil-field
tuple, but the canonical text of year 12345 has a five-digit year, which the
fixed `\d{4}` date grammar rejects: `fromFields(12345, 1, 1).toText()` is
"12345-01-01T00:00:00Z", and re-parsing it fails with a `ParseError`, so the
round trip does not hold as stated. -/
theorem C3_counterexample :
    isValidDate 12345 1 1 = true ∧ isValidTime 0 0 0 0 = true ∧
    (dateFromComponents 12345 1 1 0 0 0 0 "UTC").map toISOString =
      .ok "12345-01-01T00:00:00Z" ∧
    parseISO "12345-01-01T00:00:00Z" =
      .error (.parseError "Invalid date format: 12345-01-01") := by
  decide

/-- C3 (witness): the text round trip at 2025-01-15T10:30:45.123Z, the
timestamp round trip at 1736899200000, and the out-of-range throw at
8640000000000001. -/
theorem C3_witness :
    parseISO (toISOString { year := 2025, month := 1, day := 15, hour := 10, minute := 30, second := 45, millisecond := 123, timestamp := jsDateUTC 2025 (1 - 1) 15 10 30 45 123, timezone := "UTC" }) =
      .ok { year := 2025, month := 1, day := 15, hour := 10, minute := 30, second := 45, millisecond := 123, timestamp := jsDateUTC 2025 (1 - 1) 15 10 30 45 123, timezone := "UTC" } ∧
    (dateFromTimestamp 1736899200000 "UTC").map ChronoDate.timestamp =
      .ok (some 1736899200000) ∧
    dateFromTimestamp 8640000000000001 "UTC" =
      .error (.chronoError "Invalid date: NaN-NaN-NaN") :=
  ⟨C3_round_trip.1 2025 1 15 10 30 45 123
      { year := 2025, month := 1, day := 15, hour := 10, minute := 30, second := 45, millisecond := 123, timestamp := jsDateUTC 2025 (1 - 1) 15 10 30 45 123, timezone := "UTC" }
      (by decide) (by decide) (by decide) (by decide)
      (by rw [dateFromComponents_ok 2025 1 15 10 30 45 123 "UTC" (by decide)
            (by decide)]),
    C3_round_trip.2.1 1736899200000 (by decide) (by decide),
    C3_round_trip.2.2 8640000000000001 (by decide)⟩

end Chronox
